import Mathlib

/-!
# Kitchen: connect server composition and lifecycle

A shallow embedding of `pkg/service/connect/server.go`, `pkg/service/connect/options.go`,
`pkg/service/config.go`, `pkg/common/config/defaults.go` and
`pkg/common/logging/logger.go`.

Effects are made explicit.  Every function that runs callbacks or talks to the
transport threads a `World`: the state the callbacks act on (`user`) and the
ordered trace of observable events (`trace`): log lines, hook invocations,
listener and transport operations.  A Go `error` result is `Option Error`, with
`none` for `nil`.  A Go panic raised by the request multiplexer is `Except Panic`.
-/

namespace Kitchen

/-! ## Basic values -/

/-- A non-nil Go `error` value. -/
abbrev Error := String

/-- The value carried by a Go panic. -/
abbrev Panic := String

/-- A `context.Context`: the part a hook can observe. -/
structure Context where
  cancelled : Bool
  deadline : Option Nat
  deriving DecidableEq, Repr

/-- The three lifecycle phases in which hooks run. -/
inductive Phase where
  | preStart
  | preShutdown
  | shutdown
  deriving DecidableEq, Repr

/-- Log levels used by the server. -/
inductive Level where
  | info
  | error
  deriving DecidableEq, Repr

/-- Observable events, in the order the program performs them. -/
inductive Event where
  | log (level : Level) (msg : String) (fields : List (String × String))
  | logSync
  | hook (phase : Phase) (index : Nat)
  | listen (network : String) (address : String)
  | serve (address : String)
  | transportShutdown
  deriving DecidableEq, Repr

/-- The state threaded through effectful code. -/
structure World (σ : Type) where
  user : σ
  trace : List Event

/-- Append one event to the trace. -/
def World.emit {σ : Type} (w : World σ) (e : Event) : World σ :=
  { w with trace := w.trace ++ [e] }

/-- One call of `s.logger.Info`. -/
def World.logInfo {σ : Type} (w : World σ) (msg : String) (fields : List (String × String)) :
    World σ :=
  w.emit (Event.log Level.info msg fields)

/-- One call of `s.logger.Error`. -/
def World.logError {σ : Type} (w : World σ) (msg : String) (fields : List (String × String)) :
    World σ :=
  w.emit (Event.log Level.error msg fields)

/-- The field `zap.Int(key, i)`. -/
def zapInt (key : String) (i : Int) : String × String := (key, toString i)

/-- The field `zap.String(key, s)`. -/
def zapString (key : String) (s : String) : String × String := (key, s)

/-! ## `pkg/service/service.go`: hook types -/

/-- Go `type PreStartHook func(context.Context) error`. -/
abbrev PreStartHook (σ : Type) := Context → σ → Option Error × σ

/-- Go `type PreShutdownHook func() error`. -/
abbrev PreShutdownHook (σ : Type) := σ → Option Error × σ

/-- Go `type ShutdownHook func() error`. -/
abbrev ShutdownHook (σ : Type) := σ → Option Error × σ

/-! ## `pkg/common/config/defaults.go`: environments -/

/-- Go `type Env string`. -/
structure Env where
  value : String
  deriving DecidableEq, Repr

/-- Go `Local`, the local development environment. -/
def Local : Env := ⟨"local"⟩

/-- Go `Demo`, the demo environment. -/
def Demo : Env := ⟨"demo"⟩

/-- Go `Stage`. -/
def Stage : Env := ⟨"stg"⟩

/-- Go `Preprod`. -/
def Preprod : Env := ⟨"preprod"⟩

/-- Go `QA`, the QA environment. -/
def QA : Env := ⟨"qa"⟩

/-- Go `Production`, the production environment. -/
def Production : Env := ⟨"prod"⟩

/-- Go `Test`. -/
def Test : Env := ⟨"test"⟩

/-- Go `(*Env).UnmarshalConfig`: the value stored in `*e`, whatever it held before. -/
def Env.UnmarshalConfig (_e : Env) (value : String) : Env :=
  if value = "demo" then Demo
  else if value = "qa" then QA
  else if value = "production" ∨ value = "prod" then Production
  else if value = "preprod" then Preprod
  else if value = "stage" ∨ value = "stg" ∨ value = "staging" then Stage
  else if value = "test" then Test
  else Local

/-- Go `Env.String`. -/
def Env.String (e : Env) : String :=
  if e = Demo then "demo"
  else if e = Stage then "stg"
  else if e = QA then "qa"
  else if e = Production then "prod"
  else if e = Preprod then "preprod"
  else if e = Test then "test"
  else "local"

/-! ## `pkg/service/config.go` -/

/-- Go `math.MaxUint16`. -/
def MaxUint16 : Int := 65535

/-- Go `config.Base`, without its floating-point `TraceSampleRate`, which nothing
embedded here reads. -/
structure Base where
  Env : Env
  ServiceName : String
  ServiceVersion : String
  TraceAddress : String
  MetricsAddress : String
  LogLevel : String
  SystemPort : Int
  TraceMaxBatchCount : Int
  ProfilerBlockProfileRate : Int
  ProfilerMutexProfileFraction : Int
  ExportRuntimeMetrics : Bool
  ProfilerEnabled : Bool
  DisableLogSampling : Bool
  DisableStackTraces : Bool
  BindAddress : String
  deriving DecidableEq, Repr

/-- Go `service.Config`; durations are nanosecond counts. -/
structure Config where
  Base : Base
  ValidIssuers : List String
  GrpcPort : Int
  HttpPort : Int
  ReadHeaderTimeout : Int
  ReadTimeout : Int
  WriteTimeout : Int
  deriving DecidableEq, Repr

/-- Go `validatePort`: the error when the port is outside `1 .. math.MaxUint16`. -/
def validatePort (port : Int) : Option Error :=
  if port < 1 ∨ port > MaxUint16 then
    some ("invalid port " ++ toString port ++ ", must be in range " ++ toString (1 : Int)
      ++ " - " ++ toString MaxUint16)
  else
    none

/-- Assignment `m[key] = v` on a Go map kept as an association list. -/
def mapSet (m : List (String × Error)) (key : String) (v : Error) : List (String × Error) :=
  (key, v) :: m.filter (fun kv => kv.1 != key)

/-- Go `Config.Validate`. -/
def Config.Validate (c : Config) (_ctx : Context) : Option Error :=
  let violations : List (String × Error) := []
  let violations :=
    match validatePort c.GrpcPort with
    | some err => mapSet violations "grpc_port" err
    | none => violations
  let violations :=
    match validatePort c.HttpPort with
    | some err => mapSet violations "http_port" err
    | none => violations
  if violations.length > 0 then some "validation failed" else none

/-! ## External libraries used by the connect server -/

/-- A `connect.Interceptor` value. -/
inductive Interceptor where
  /-- The value built by `otelconnect.NewInterceptor`. -/
  | tracing
  /-- The value built by `connect_metadata.NewInterceptor`. -/
  | metadata
  /-- Any other interceptor. -/
  | custom (id : Nat)
  deriving DecidableEq, Repr

/-- A `connect.HandlerOption` value. -/
inductive HandlerOption where
  /-- The value `connect.WithInterceptors(is...)`. -/
  | withInterceptors (interceptors : List Interceptor)
  /-- The value `connect.WithRecover(s.recover)`. -/
  | withRecover
  /-- Any other handler option. -/
  | custom (id : Nat)
  deriving DecidableEq, Repr

/-- An `http.Handler` mounted on the multiplexer. -/
inductive HttpHandler where
  /-- A handler returned by a `HandlerFactory`. -/
  | route (id : Nat)
  /-- The handler of `grpcreflect.NewHandlerV1` over a static reflector. -/
  | reflectV1 (serviceNames : List String)
  /-- The handler of `grpcreflect.NewHandlerV1Alpha` over a static reflector. -/
  | reflectV1Alpha (serviceNames : List String)
  deriving DecidableEq, Repr

/-- An `http.ServeMux`: its registrations, oldest first. -/
abbrev ServeMux := List (String × HttpHandler)

/-- A `cors.Option` value. -/
abbrev CorsOption := Nat

/-- What the libraries outside this repository decide.  `muxPanics mux pattern`
tells whether `ServeMux.Handle` panics when `pattern` is registered on `mux`;
`otelNewInterceptor` is the outcome of `otelconnect.NewInterceptor`. -/
structure Externals where
  muxPanics : ServeMux → String → Bool
  otelNewInterceptor : Except Error Interceptor

/-- Go `http.NewServeMux`. -/
def NewServeMux : ServeMux := []

/-- Go `ServeMux.Handle`: registers the handler for the pattern, or panics. -/
def ServeMux.Handle (ext : Externals) (mux : ServeMux) (pattern : String) (handler : HttpHandler) :
    Except Panic ServeMux :=
  if ext.muxPanics mux pattern then
    Except.error ("http: invalid or conflicting pattern " ++ pattern)
  else
    Except.ok (mux ++ [(pattern, handler)])

/-- The rule of `net/http` as documented: `Handle` panics on an empty pattern and on
a pattern that is already registered. -/
def goMuxPanics (mux : ServeMux) (pattern : String) : Bool :=
  pattern == "" || (mux.map Prod.fst).contains pattern

/-- Replacement scan of Go `strings.ReplaceAll` for a non-empty `old`: `skip`
counts the characters of a match still to be dropped. -/
def replaceScan (old new : List Char) : Nat → List Char → List Char
  | _, [] => []
  | skip + 1, _ :: cs => replaceScan old new skip cs
  | 0, c :: cs =>
    if old.isPrefixOf (c :: cs) then
      new ++ replaceScan old new (old.length - 1) cs
    else
      c :: replaceScan old new 0 cs

/-- Go `strings.ReplaceAll(s, old, new)`: every non-overlapping occurrence of
`old`, left to right, is replaced by `new`; an empty `old` matches before every
character and at the end.  Strings are taken character by character: for valid
UTF-8 this agrees with the scan over bytes. -/
def ReplaceAll (s old new : String) : String :=
  if old.data = [] then
    String.mk (s.data.foldr (fun c acc => new.data ++ c :: acc) new.data)
  else
    String.mk (replaceScan old.data new.data 0 s.data)

/-- The mount path of `grpcreflect.NewHandlerV1`. -/
def reflectV1Path : String := "/grpc.reflection.v1.ServerReflection/"

/-- The mount path of `grpcreflect.NewHandlerV1Alpha`. -/
def reflectV1AlphaPath : String := "/grpc.reflection.v1alpha.ServerReflection/"

/-! ## `pkg/service/connect/server.go` -/

/-- Go `LoggerName`. -/
def LoggerName : String := "connect.server"

/-- The `http.Server` value built by `NewServer`. -/
structure HttpServer where
  Addr : String
  Handler : List CorsOption × ServeMux
  ReadHeaderTimeout : Int
  ReadTimeout : Int
  WriteTimeout : Int

/-- The zero `http.Server`. -/
def HttpServer.zero : HttpServer :=
  { Addr := "", Handler := ([], []), ReadHeaderTimeout := 0, ReadTimeout := 0, WriteTimeout := 0 }

/-- A handler value of some type `T`, with its dynamic method set: each optional
lifecycle method is present (`some`) or absent (`none`). -/
structure Handler (σ : Type) where
  id : Nat
  PreStart : Option (Context → σ → Option Error × σ)
  PreShutdown : Option (σ → Option Error × σ)
  Shutdown : Option (σ → Option Error × σ)

/-- Go `type HandlerFactory[T any] func(T, ...connect.HandlerOption) (string, http.Handler)`. -/
abbrev HandlerFactory (σ : Type) := Handler σ → List HandlerOption → String × HttpHandler

/-- Go `type Server struct`.  The `httpServer` pointer is nil only inside `NewServer`,
before its last assignment; the embedding holds the zero `http.Server` there. -/
structure Server (σ : Type) where
  logger : String
  httpServer : HttpServer
  mux : ServeMux
  preStartHooks : List (PreStartHook σ)
  preShutdownHooks : List (PreShutdownHook σ)
  shutdownHooks : List (ShutdownHook σ)
  cfg : Config

/-- Go `type Service[T any] struct`; the only implementation of `ServiceRegistrar`. -/
structure Service (σ : Type) where
  Factory : HandlerFactory σ
  Handler : Handler σ

/-- Go `ServiceRegistrar`. -/
abbrev ServiceRegistrar (σ : Type) := Service σ

/-- Go `Server.defaultOptions`. -/
def Server.defaultOptions {σ : Type} (ext : Externals) (_s : Server σ) (opts : List HandlerOption) :
    List HandlerOption :=
  let interceptors : List Interceptor := []
  let interceptors :=
    match ext.otelNewInterceptor with
    | Except.ok interceptor => interceptors ++ [interceptor]
    | Except.error _ => interceptors
  let interceptors := interceptors ++ [Interceptor.metadata]
  let defaults : List HandlerOption := []
  let defaults := defaults ++ [HandlerOption.withInterceptors interceptors, HandlerOption.withRecover]
  defaults ++ opts

/-- Go `Service.Register`: returns the mount path and the server with the route mounted. -/
def Service.Register {σ : Type} (ext : Externals) (s : Service σ) (server : Server σ)
    (opts : List HandlerOption) : Except Panic (String × Server σ) :=
  let (path, route) := s.Factory s.Handler (server.defaultOptions ext opts)
  match ServeMux.Handle ext server.mux path route with
  | Except.error p => Except.error p
  | Except.ok mux => Except.ok (path, { server with mux := mux })

/-- Go `Server.RegisterPreStartHook`. -/
def Server.RegisterPreStartHook {σ : Type} (s : Server σ) (hooks : List (PreStartHook σ)) :
    Server σ :=
  { s with preStartHooks := s.preStartHooks ++ hooks }

/-- Go `Server.RegisterPreShutdownHook`. -/
def Server.RegisterPreShutdownHook {σ : Type} (s : Server σ)
    (hooks : List (PreShutdownHook σ)) : Server σ :=
  { s with preShutdownHooks := s.preShutdownHooks ++ hooks }

/-- Go `Server.RegisterShutdownHook`. -/
def Server.RegisterShutdownHook {σ : Type} (s : Server σ) (hooks : List (ShutdownHook σ)) :
    Server σ :=
  { s with shutdownHooks := s.shutdownHooks ++ hooks }

/-! ## `pkg/service/connect/options.go` -/

/-- Go `type options struct`. -/
structure options (σ : Type) where
  additionalServices : List (ServiceRegistrar σ)
  handlerOptions : List HandlerOption
  corsOptions : List CorsOption

/-- Go `type Option func(*options)`. -/
abbrev ServerOption (σ : Type) := options σ → options σ

/-- Go `WithAdditionalService`. -/
def WithAdditionalService {σ : Type} (factory : HandlerFactory σ) (handler : Handler σ) :
    ServerOption σ :=
  fun o => { o with additionalServices := o.additionalServices ++ [⟨factory, handler⟩] }

/-- Go `WithHandlerOptions`. -/
def WithHandlerOptions {σ : Type} (handlerOptions : List HandlerOption) : ServerOption σ :=
  fun o => { o with handlerOptions := handlerOptions }

/-- Go `WithCORSOptions`. -/
def WithCORSOptions {σ : Type} (corsOptions : List CorsOption) : ServerOption σ :=
  fun o => { o with corsOptions := corsOptions }

/-! ## `NewServer` -/

/-- The loop `for _, opt := range opts { opt(&options) }` from the zero value. -/
def parseOptions {σ : Type} (opts : List (ServerOption σ)) : options σ :=
  opts.foldl (fun o opt => opt o) ⟨[], [], []⟩

/-- The loop of `NewServer` mounting every service and collecting the names. -/
def registerServices {σ : Type} (ext : Externals) (handlerOptions : List HandlerOption) :
    List (ServiceRegistrar σ) → Server σ → List String → Except Panic (Server σ × List String)
  | [], s, serviceNames => Except.ok (s, serviceNames)
  | service :: rest, s, serviceNames =>
    match service.Register ext s handlerOptions with
    | Except.error p => Except.error p
    | Except.ok (path, s) =>
      let serviceName := ReplaceAll path "/" ""
      registerServices ext handlerOptions rest s (serviceNames ++ [serviceName])

/-- Go `NewServer`. -/
def NewServer {σ : Type} (ext : Externals) (cfg : Config) (factory : HandlerFactory σ)
    (handler : Handler σ) (opts : List (ServerOption σ)) : Except Panic (Server σ) :=
  let options := parseOptions opts
  let s : Server σ :=
    { logger := LoggerName, httpServer := HttpServer.zero, mux := NewServeMux, preStartHooks := [],
      preShutdownHooks := [], shutdownHooks := [], cfg := cfg }
  let serviceNames : List String := []
  let services : List (ServiceRegistrar σ) := []
  let services := services ++ [⟨factory, handler⟩]
  let services := services ++ options.additionalServices
  match registerServices ext options.handlerOptions services s serviceNames with
  | Except.error p => Except.error p
  | Except.ok (s, serviceNames) =>
    match ServeMux.Handle ext s.mux reflectV1Path (HttpHandler.reflectV1 serviceNames) with
    | Except.error p => Except.error p
    | Except.ok mux =>
      let s := { s with mux := mux }
      match ServeMux.Handle ext s.mux reflectV1AlphaPath
          (HttpHandler.reflectV1Alpha serviceNames) with
      | Except.error p => Except.error p
      | Except.ok mux =>
        let s := { s with mux := mux }
        let s := match handler.PreStart with
          | some hook => s.RegisterPreStartHook [hook]
          | none => s
        let s := match handler.PreShutdown with
          | some hook => s.RegisterPreShutdownHook [hook]
          | none => s
        let s := match handler.Shutdown with
          | some hook => s.RegisterShutdownHook [hook]
          | none => s
        let httpServer : HttpServer :=
          { Addr := cfg.Base.BindAddress ++ ":" ++ toString cfg.GrpcPort
            Handler := (options.corsOptions, s.mux)
            ReadHeaderTimeout := cfg.ReadHeaderTimeout
            ReadTimeout := cfg.ReadTimeout
            WriteTimeout := cfg.WriteTimeout }
        Except.ok { s with httpServer := httpServer }

/-! ## Lifecycle: hook execution, `Start`, `Stop` -/

/-- A `net.Listener`. -/
abbrev Listener := Nat

/-- The network and transport operations, acting on the state the hooks act on. -/
structure Transport (σ : Type) where
  /-- Go `net.Listen(network, address)`. -/
  Listen : String → String → σ → Except Error Listener × σ
  /-- Go `(*http.Server).Serve(lis)`. -/
  Serve : HttpServer → Listener → σ → Option Error × σ
  /-- Go `(*http.Server).Shutdown(ctx)`. -/
  Shutdown : HttpServer → σ → Option Error × σ

/-- The loop `for i, hook := range s.preStartHooks` from index `i` on. -/
def preStartLoop {σ : Type} (ctx : Context) :
    Nat → List (PreStartHook σ) → World σ → Option Error × World σ
  | _, [], w => (none, w)
  | i, hook :: rest, w =>
    let r := hook ctx w.user
    let w : World σ := { user := r.2, trace := w.trace ++ [Event.hook Phase.preStart i] }
    match r.1 with
    | some err => (some err, w.logError "pre-start hook failed" [zapInt "index" i])
    | none => preStartLoop ctx (i + 1) rest w

/-- Go `Server.runPreStartHooks`. -/
def Server.runPreStartHooks {σ : Type} (s : Server σ) (ctx : Context) (w : World σ) :
    Option Error × World σ :=
  if s.preStartHooks.length = 0 then
    (none, w)
  else
    preStartLoop ctx 0 s.preStartHooks (w.logInfo "running pre-start hooks" [])

/-- The loop `for i, hook := range hooks` of the two shutdown phases from index `i` on. -/
def shutdownLoop {σ : Type} (phase : Phase) (failed : String) :
    Nat → List (σ → Option Error × σ) → World σ → World σ
  | _, [], w => w
  | i, hook :: rest, w =>
    let r := hook w.user
    let w : World σ := { user := r.2, trace := w.trace ++ [Event.hook phase i] }
    match r.1 with
    | some _ => shutdownLoop phase failed (i + 1) rest (w.logError failed [zapInt "index" i])
    | none => shutdownLoop phase failed (i + 1) rest w

/-- Go `Server.runPreShutdownHooks`. -/
def Server.runPreShutdownHooks {σ : Type} (s : Server σ) (w : World σ) : World σ :=
  if s.preShutdownHooks.length = 0 then
    w
  else
    shutdownLoop Phase.preShutdown "pre-shutdown hook failed" 0 s.preShutdownHooks
      (w.logInfo "running pre-shutdown hooks" [])

/-- Go `Server.runShutdownHooks`. -/
def Server.runShutdownHooks {σ : Type} (s : Server σ) (w : World σ) : World σ :=
  if s.shutdownHooks.length = 0 then
    w
  else
    shutdownLoop Phase.shutdown "shutdown hook failed" 0 s.shutdownHooks
      (w.logInfo "running shutdown hooks" [])

/-- Go `Server.Start`. -/
def Server.Start {σ : Type} (t : Transport σ) (s : Server σ) (ctx : Context) (w : World σ) :
    Option Error × World σ :=
  let w := w.logInfo "starting connect service"
    [zapString "addr" s.cfg.Base.BindAddress, zapInt "port" s.cfg.GrpcPort]
  match s.runPreStartHooks ctx w with
  | (some err, w) => (some err, w)
  | (none, w) =>
    let address := s.cfg.Base.BindAddress ++ ":" ++ toString s.cfg.GrpcPort
    let w := w.emit (Event.listen "tcp" address)
    match t.Listen "tcp" address w.user with
    | (Except.error err, u) => (some err, { w with user := u })
    | (Except.ok lis, u) =>
      let w : World σ := { w with user := u }
      let w := w.logInfo "connect service listening on port"
        [zapString "addr" s.cfg.Base.BindAddress, zapInt "port" s.cfg.GrpcPort]
      let w := w.emit (Event.serve address)
      let r := t.Serve s.httpServer lis w.user
      (r.1, { w with user := r.2 })

/-- Go `Server.Stop`; the deferred `s.logger.Sync()` runs last. -/
def Server.Stop {σ : Type} (t : Transport σ) (s : Server σ) (w : World σ) :
    Option Error × World σ :=
  let w := w.logInfo "stopping connect service" []
  let w := s.runPreShutdownHooks w
  let w := w.emit Event.transportShutdown
  let r := t.Shutdown s.httpServer w.user
  let w : World σ := { w with user := r.2 }
  let w := s.runShutdownHooks w
  let w := w.emit Event.logSync
  (r.1, w)

/-! ## Panic recovery: `Server.recover` -/

/-- Go `connect.Code`. -/
inductive Code where
  | canceled
  | unknown
  | invalidArgument
  | deadlineExceeded
  | notFound
  | alreadyExists
  | permissionDenied
  | resourceExhausted
  | failedPrecondition
  | aborted
  | outOfRange
  | unimplemented
  | internal
  | unavailable
  | dataLoss
  | unauthenticated
  deriving DecidableEq, Repr

/-- Go `connect.Error`: a code and the wrapped error, nil when there is none. -/
structure ConnectError where
  code : Code
  err : Option Error
  deriving DecidableEq, Repr

/-- Go `connect.NewError(c, underlying)`. -/
def NewError (c : Code) (underlying : Option Error) : ConnectError :=
  { code := c, err := underlying }

/-- A Go value of type `any`, as a panic carries it. -/
inductive Any where
  /-- The nil interface value. -/
  | nil
  /-- A value that implements `error`. -/
  | error (err : Error)
  /-- A string. -/
  | string (s : String)
  /-- An integer. -/
  | int (n : Int)
  /-- A value of any other type, none of them an `error`. -/
  | other (id : Nat)
  deriving DecidableEq, Repr

/-- The assertion `err, _ := a.(error)`: nil unless the value implements `error`. -/
def Any.asError : Any → Option Error
  | Any.error err => some err
  | _ => none

/-- Go `connect.Spec`, the part `recover` reads. -/
structure Spec where
  Procedure : String
  deriving DecidableEq, Repr

/-- Go `http.Header`. -/
abbrev Header := List (String × List String)

/-- The field `zap.Error(err)`; a nil error yields no field. -/
def zapError (err : Option Error) : List (String × String) :=
  match err with
  | some e => [("error", e)]
  | none => []

/-- The field `zap.Stack(key)`; the captured stack itself is not modelled. -/
def zapStack (key : String) : String × String := (key, "")

/-- Go `Server.recover`, the connect recovery handler. -/
def Server.recover {σ : Type} (_s : Server σ) (_ctx : Context) (spec : Spec) (_header : Header)
    (a : Any) (w : World σ) : Option ConnectError × World σ :=
  let err := a.asError
  let w := w.logError "*** PANIC ***"
    (zapError err ++ [zapStack "stacktrace", zapString "grpc_method" spec.Procedure])
  (some (NewError Code.internal err), w)

/-! ## `pkg/common/logging/logger.go`: `Configure` -/

/-- Go `zapcore.Level`. -/
inductive ZapLevel where
  | debug
  | info
  | warn
  | error
  | dpanic
  | panic
  | fatal
  deriving DecidableEq, Repr

/-- Go `zap.SamplingConfig`. -/
structure SamplingConfig where
  Initial : Int
  Thereafter : Int
  deriving DecidableEq, Repr

/-- Go `zap.Config`; its `AtomicLevel` is identified with the level it holds. -/
structure ZapConfig where
  Level : ZapLevel
  Development : Bool
  DisableCaller : Bool
  DisableStacktrace : Bool
  Sampling : Option SamplingConfig
  Encoding : String
  OutputPaths : List String
  ErrorOutputPaths : List String
  InitialFields : List (String × String)
  deriving DecidableEq, Repr

/-- A `zap.Logger`, identified by the configuration it was built from. -/
structure ZapLogger where
  config : ZapConfig
  deriving DecidableEq, Repr

/-- What the zap library decides: its two preset configurations, the parsing of a
level name by `zapcore.Level.Set`, and the outcome of `zap.Config.Build`. -/
structure ZapLibrary where
  NewProductionConfig : ZapConfig
  NewDevelopmentConfig : ZapConfig
  LevelSet : String → Except Error ZapLevel
  Build : ZapConfig → Except Error ZapLogger

/-- The package state of `logging`: the variable `zcfg` and zap's global logger
(`none` while it is still the initial no-op logger). -/
structure LoggingState where
  zcfg : ZapConfig
  globalLogger : Option ZapLogger
  deriving DecidableEq, Repr

/-- Go `LogFieldEnv`. -/
def LogFieldEnv : String := "dd.env"

/-- Go `LogFieldServiceName`. -/
def LogFieldServiceName : String := "dd.service"

/-- Go `LogFieldServiceVersion`. -/
def LogFieldServiceVersion : String := "dd.version"

/-- Go `logging.Configure`: the returned error and the package state it leaves. -/
def Configure (zap : ZapLibrary) (cfg : Base) (st : LoggingState) :
    Option Error × LoggingState :=
  let zcfg := if cfg.Env ≠ Local then zap.NewProductionConfig else zap.NewDevelopmentConfig
  let zcfg := if cfg.Env ≠ Production then { zcfg with Development := true } else zcfg
  let zcfg :=
    if cfg.Env = Production ∨ cfg.DisableLogSampling = true then
      { zcfg with Sampling := none }
    else zcfg
  let zcfg :=
    if cfg.LogLevel ≠ "" then
      match zap.LevelSet cfg.LogLevel with
      | Except.ok level => { zcfg with Level := level }
      | Except.error _ => zcfg
    else zcfg
  let zcfg := if cfg.DisableStackTraces = true then { zcfg with DisableStacktrace := true } else zcfg
  let zcfg := { zcfg with InitialFields :=
    [(LogFieldEnv, cfg.Env.String), (LogFieldServiceName, cfg.ServiceName),
      (LogFieldServiceVersion, cfg.ServiceVersion)] }
  match zap.Build zcfg with
  | Except.error err => (some err, { st with zcfg := zcfg })
  | Except.ok logger => (none, { zcfg := zcfg, globalLogger := some logger })

/-- Go `logging.Config`. -/
def LoggingState.Config (st : LoggingState) : ZapConfig := st.zcfg

/-- The preset of `zap.NewProductionConfig` as zap documents it: `InfoLevel`, JSON
encoding, sampling enabled, standard error as output. -/
def goProductionConfig : ZapConfig :=
  { Level := ZapLevel.info
    Development := false
    DisableCaller := false
    DisableStacktrace := false
    Sampling := some { Initial := 100, Thereafter := 100 }
    Encoding := "json"
    OutputPaths := ["stderr"]
    ErrorOutputPaths := ["stderr"]
    InitialFields := [] }

/-- The preset of `zap.NewDevelopmentConfig` as zap documents it: `DebugLevel`,
development mode, console encoding, no sampling, standard error as output. -/
def goDevelopmentConfig : ZapConfig :=
  { Level := ZapLevel.debug
    Development := true
    DisableCaller := false
    DisableStacktrace := false
    Sampling := none
    Encoding := "console"
    OutputPaths := ["stderr"]
    ErrorOutputPaths := ["stderr"]
    InitialFields := [] }

/-- The level names `zapcore.Level.Set` accepts, for names in ASCII: each level in
lower or upper case, and the empty string for `InfoLevel`. -/
def goLevelSet (text : String) : Except Error ZapLevel :=
  let lower := String.mk (text.data.map Char.toLower)
  if lower = "debug" then Except.ok ZapLevel.debug
  else if lower = "info" ∨ lower = "" then Except.ok ZapLevel.info
  else if lower = "warn" then Except.ok ZapLevel.warn
  else if lower = "error" then Except.ok ZapLevel.error
  else if lower = "dpanic" then Except.ok ZapLevel.dpanic
  else if lower = "panic" then Except.ok ZapLevel.panic
  else if lower = "fatal" then Except.ok ZapLevel.fatal
  else Except.error ("unrecognized level: " ++ text)

/-- The zap library with a `Build` that succeeds. -/
def goZap : ZapLibrary :=
  { NewProductionConfig := goProductionConfig
    NewDevelopmentConfig := goDevelopmentConfig
    LevelSet := goLevelSet
    Build := fun zcfg => Except.ok { config := zcfg } }

/-! ## Observations used to state the properties -/

/-- The events of a trace other than log output: hook invocations, listener and
transport operations, in order. -/
def effects (tr : List Event) : List Event :=
  tr.filter (fun e =>
    match e with
    | Event.log _ _ _ => false
    | Event.logSync => false
    | _ => true)

/-- The effects performed between two worlds of one run. -/
def newEffects {σ : Type} (before after : World σ) : List Event :=
  (effects after.trace).drop (effects before.trace).length

/-- The invocations of hooks `0 .. n-1` of a phase, in registration order, each once. -/
def hooksInOrder (phase : Phase) (n : Nat) : List Event :=
  (List.range n).map (Event.hook phase)

/-- The state reached once the first `n` pre-start hooks have run one after another. -/
def preStartStateAfter {σ : Type} (ctx : Context) (hooks : List (PreStartHook σ)) (u : σ)
    (n : Nat) : σ :=
  (hooks.take n).foldl (fun u hook => (hook ctx u).2) u

/-- What pre-start hook `k` returns when it is called after hooks `0 .. k-1`. -/
def preStartOutcome {σ : Type} (ctx : Context) (hooks : List (PreStartHook σ)) (u : σ)
    (k : Nat) : Option Error :=
  match hooks[k]? with
  | some hook => (hook ctx (preStartStateAfter ctx hooks u k)).1
  | none => none

/-- The state reached once the first `n` hooks of a shutdown phase have run. -/
def shutdownStateAfter {σ : Type} (hooks : List (σ → Option Error × σ)) (u : σ) (n : Nat) : σ :=
  (hooks.take n).foldl (fun u hook => (hook u).2) u

/-- The services `NewServer` mounts, in mount order: the primary service first, then
the additional services held by the parsed options. -/
def mountedServices {σ : Type} (factory : HandlerFactory σ) (handler : Handler σ)
    (opts : List (ServerOption σ)) : List (Service σ) :=
  ⟨factory, handler⟩ :: (parseOptions opts).additionalServices

/-- The mount path and route each mounted service's factory returns when called with
its handler and the default options, in mount order. -/
def mountedRoutes {σ : Type} (ext : Externals) (cfg : Config) (factory : HandlerFactory σ)
    (handler : Handler σ) (opts : List (ServerOption σ)) : List (String × HttpHandler) :=
  let base : Server σ :=
    { logger := LoggerName, httpServer := HttpServer.zero, mux := NewServeMux,
      preStartHooks := [], preShutdownHooks := [], shutdownHooks := [], cfg := cfg }
  (mountedServices factory handler opts).map
    (fun sv => sv.Factory sv.Handler (base.defaultOptions ext (parseOptions opts).handlerOptions))

/-- The options a caller outside the package can build: one per constructor of
`options.go`. -/
inductive OptionSpec (σ : Type) where
  | additionalService (factory : HandlerFactory σ) (handler : Handler σ)
  | handlerOptions (handlerOptions : List HandlerOption)
  | corsOptions (corsOptions : List CorsOption)

/-- The `Option` value a constructor call yields. -/
def OptionSpec.toOption {σ : Type} : OptionSpec σ → ServerOption σ
  | OptionSpec.additionalService factory handler => WithAdditionalService factory handler
  | OptionSpec.handlerOptions ho => WithHandlerOptions ho
  | OptionSpec.corsOptions co => WithCORSOptions co

/-- The services passed through `WithAdditionalService`, in the order supplied. -/
def OptionSpec.services {σ : Type} (specs : List (OptionSpec σ)) : List (Service σ) :=
  specs.filterMap (fun spec =>
    match spec with
    | OptionSpec.additionalService factory handler => some ⟨factory, handler⟩
    | _ => none)

/-- The seven environments `defaults.go` names. -/
def knownEnvs : List Env := [Local, Demo, Stage, Preprod, QA, Production, Test]

/-- The strings `UnmarshalConfig` recognises. -/
def recognisedEnvNames : List String :=
  ["demo", "qa", "production", "prod", "preprod", "stage", "stg", "staging", "test"]

/-- The mount paths of the services `NewServer` mounts, in mount order. -/
def mountPaths {σ : Type} (ext : Externals) (cfg : Config) (factory : HandlerFactory σ)
    (handler : Handler σ) (opts : List (ServerOption σ)) : List String :=
  (mountedRoutes ext cfg factory handler opts).map Prod.fst

/-! ## Example inputs -/

/-- A pre-start hook that records its name and succeeds. -/
def okPreStart (name : String) : PreStartHook (List String) :=
  fun _ u => (none, u ++ [name])

/-- A pre-start hook that records its name and fails. -/
def failPreStart (name : String) (err : Error) : PreStartHook (List String) :=
  fun _ u => (some err, u ++ [name])

/-- A shutdown-phase hook that records its name and succeeds. -/
def okHook (name : String) : List String → Option Error × List String :=
  fun u => (none, u ++ [name])

/-- A shutdown-phase hook that records its name and fails. -/
def failHook (name : String) (err : Error) : List String → Option Error × List String :=
  fun u => (some err, u ++ [name])

/-- A configuration with valid ports. -/
def exampleConfig : Config :=
  { Base :=
      { Env := Local
        ServiceName := "kitchen"
        ServiceVersion := "1.0.0"
        TraceAddress := ""
        MetricsAddress := ""
        LogLevel := "info"
        SystemPort := 9102
        TraceMaxBatchCount := 256
        ProfilerBlockProfileRate := 0
        ProfilerMutexProfileFraction := 0
        ExportRuntimeMetrics := true
        ProfilerEnabled := false
        DisableLogSampling := false
        DisableStackTraces := false
        BindAddress := "0.0.0.0" }
    ValidIssuers := []
    GrpcPort := 50051
    HttpPort := 8080
    ReadHeaderTimeout := 1000000000
    ReadTimeout := 30000000000
    WriteTimeout := 30000000000 }

/-- A server whose three hook lists are each `[ok, fail, ok]`. -/
def exampleServer : Server (List String) :=
  { logger := LoggerName
    httpServer := HttpServer.zero
    mux := NewServeMux
    preStartHooks := [okPreStart "a", failPreStart "b" "boom", okPreStart "c"]
    preShutdownHooks := [okHook "d", failHook "e" "bang", okHook "f"]
    shutdownHooks := [okHook "g", failHook "h" "crash", okHook "i"]
    cfg := exampleConfig }

/-- A server whose pre-start hooks all succeed. -/
def healthyServer : Server (List String) :=
  { exampleServer with preStartHooks := [okPreStart "a", okPreStart "b"] }

/-- A context that is neither cancelled nor bounded. -/
def background : Context := { cancelled := false, deadline := none }

/-- The world before anything has run. -/
def emptyWorld : World (List String) := { user := [], trace := [] }

/-- A transport on which every operation succeeds and is recorded in the state. -/
def okTransport : Transport (List String) :=
  { Listen := fun _ _ u => (Except.ok 3, u ++ ["listen"])
    Serve := fun _ _ u => (some "http: Server closed", u ++ ["serve"])
    Shutdown := fun _ u => (none, u ++ ["shutdown"]) }

/-- A transport whose shutdown fails. -/
def failingTransport : Transport (List String) :=
  { okTransport with Shutdown := fun _ u => (some "context deadline exceeded", u ++ ["shutdown"]) }

/-- The libraries as they behave when tracing can be set up. -/
def goExternals : Externals :=
  { muxPanics := goMuxPanics, otelNewInterceptor := Except.ok Interceptor.tracing }

/-- The libraries as they behave when the tracing interceptor cannot be built. -/
def noTracingExternals : Externals :=
  { muxPanics := goMuxPanics, otelNewInterceptor := Except.error "otel unavailable" }

/-- Libraries with a multiplexer that accepts every registration. -/
def permissiveExternals : Externals :=
  { muxPanics := fun _ _ => false, otelNewInterceptor := Except.ok Interceptor.tracing }

/-- A factory mounting its handler at a fixed path; the route is numbered after the
handler. -/
def pathFactory (path : String) : HandlerFactory (List String) :=
  fun handler _ => (path, HttpHandler.route handler.id)

/-- A handler with none of the optional lifecycle methods. -/
def plainHandler : Handler (List String) :=
  { id := 0, PreStart := none, PreShutdown := none, Shutdown := none }

/-- A handler with `PreStart` and `Shutdown` but without `PreShutdown`. -/
def partialHandler : Handler (List String) :=
  { id := 1, PreStart := some (okPreStart "ps"), PreShutdown := none,
    Shutdown := some (okHook "sd") }

/-- A handler with all three optional lifecycle methods. -/
def fullHandler : Handler (List String) :=
  { id := 2, PreStart := some (failPreStart "ps2" "not ready"),
    PreShutdown := some (okHook "psd2"), Shutdown := some (okHook "sd2") }

/-- A base configuration for production that asks for the `error` log level. -/
def errorLevelBase : Base :=
  { exampleConfig.Base with Env := Production, LogLevel := "error" }

/-- A base configuration for production without a log level. -/
def noLevelBase : Base :=
  { exampleConfig.Base with Env := Production, LogLevel := "" }

/-- A base configuration for local development without a log level. -/
def localNoLevelBase : Base :=
  { exampleConfig.Base with Env := Local, LogLevel := "" }

/-- A package state of `logging` from before any `Configure` call that matters. -/
def initialLogging : LoggingState :=
  { zcfg := goDevelopmentConfig, globalLogger := none }

/-- The package state left by `Configure` for `errorLevelBase`. -/
def errorLevelLogging : LoggingState :=
  (Configure goZap errorLevelBase initialLogging).2

/-! ## Lemmas on traces and hook loops -/

theorem effects_append (a b : List Event) : effects (a ++ b) = effects a ++ effects b := by
  simp [effects]

theorem effects_hook (p : Phase) (i : Nat) : effects [Event.hook p i] = [Event.hook p i] := rfl

theorem effects_log (l : Level) (m : String) (f : List (String × String)) :
    effects [Event.log l m f] = [] := rfl

theorem preStartStateAfter_zero {σ : Type} (ctx : Context) (hs : List (PreStartHook σ)) (u : σ) :
    preStartStateAfter ctx hs u 0 = u := by
  simp [preStartStateAfter]

theorem preStartStateAfter_cons {σ : Type} (ctx : Context) (h : PreStartHook σ)
    (hs : List (PreStartHook σ)) (u : σ) (n : Nat) :
    preStartStateAfter ctx (h :: hs) u (n + 1) = preStartStateAfter ctx hs (h ctx u).2 n := by
  simp [preStartStateAfter]

theorem preStartOutcome_cons_zero {σ : Type} (ctx : Context) (h : PreStartHook σ)
    (hs : List (PreStartHook σ)) (u : σ) :
    preStartOutcome ctx (h :: hs) u 0 = (h ctx u).1 := by
  simp [preStartOutcome, preStartStateAfter]

theorem preStartOutcome_cons_succ {σ : Type} (ctx : Context) (h : PreStartHook σ)
    (hs : List (PreStartHook σ)) (u : σ) (j : Nat) :
    preStartOutcome ctx (h :: hs) u (j + 1) = preStartOutcome ctx hs (h ctx u).2 j := by
  simp [preStartOutcome, preStartStateAfter]

theorem preStartLoop_fail {σ : Type} (ctx : Context) :
    ∀ (hs : List (PreStartHook σ)) (i : Nat) (w : World σ) (k : Nat) (e : Error),
      (∀ j, j < k → preStartOutcome ctx hs w.user j = none) →
      preStartOutcome ctx hs w.user k = some e →
      (preStartLoop ctx i hs w).1 = some e ∧
      effects (preStartLoop ctx i hs w).2.trace
        = effects w.trace ++ (List.range' i (k + 1)).map (Event.hook Phase.preStart) ∧
      (preStartLoop ctx i hs w).2.user = preStartStateAfter ctx hs w.user (k + 1) := by
  intro hs
  induction hs with
  | nil =>
    intro i w k e _ hk
    simp [preStartOutcome] at hk
  | cons h rest ih =>
    intro i w k e hlt hk
    cases k with
    | zero =>
      rw [preStartOutcome_cons_zero] at hk
      simp [preStartLoop, hk, World.logError, World.emit, effects_append, effects,
        preStartStateAfter]
    | succ k =>
      have h0 : (h ctx w.user).1 = none := by
        have := hlt 0 (Nat.succ_pos k)
        rwa [preStartOutcome_cons_zero] at this
      have hlt2 : ∀ j, j < k → preStartOutcome ctx rest (h ctx w.user).2 j = none := by
        intro j hj
        have := hlt (j + 1) (Nat.succ_lt_succ hj)
        rwa [preStartOutcome_cons_succ] at this
      rw [preStartOutcome_cons_succ] at hk
      have := ih (i + 1)
        { user := (h ctx w.user).2, trace := w.trace ++ [Event.hook Phase.preStart i] }
        k e hlt2 hk
      obtain ⟨r1, r2, r3⟩ := this
      simp only [preStartLoop, h0]
      refine ⟨r1, ?_, ?_⟩
      · rw [r2]
        simp [effects_append, effects_hook, List.range'_succ]
      · rw [r3, preStartStateAfter_cons]

theorem preStartLoop_ok {σ : Type} (ctx : Context) :
    ∀ (hs : List (PreStartHook σ)) (i : Nat) (w : World σ),
      (∀ j, j < hs.length → preStartOutcome ctx hs w.user j = none) →
      (preStartLoop ctx i hs w).1 = none ∧
      effects (preStartLoop ctx i hs w).2.trace
        = effects w.trace ++ (List.range' i hs.length).map (Event.hook Phase.preStart) ∧
      (preStartLoop ctx i hs w).2.user = preStartStateAfter ctx hs w.user hs.length := by
  intro hs
  induction hs with
  | nil =>
    intro i w _
    simp [preStartLoop, preStartStateAfter]
  | cons h rest ih =>
    intro i w hlt
    have h0 : (h ctx w.user).1 = none := by
      have := hlt 0 (by simp)
      rwa [preStartOutcome_cons_zero] at this
    have hlt2 : ∀ j, j < rest.length → preStartOutcome ctx rest (h ctx w.user).2 j = none := by
      intro j hj
      have := hlt (j + 1) (by simpa using hj)
      rwa [preStartOutcome_cons_succ] at this
    obtain ⟨r1, r2, r3⟩ := ih (i + 1)
      { user := (h ctx w.user).2, trace := w.trace ++ [Event.hook Phase.preStart i] } hlt2
    simp only [preStartLoop, h0, List.length_cons]
    refine ⟨r1, ?_, ?_⟩
    · rw [r2]
      simp [effects_append, effects_hook, List.range'_succ]
    · rw [r3, preStartStateAfter_cons]


theorem shutdownLoop_spec {σ : Type} (phase : Phase) (failed : String) :
    ∀ (hs : List (σ → Option Error × σ)) (i : Nat) (w : World σ),
      effects (shutdownLoop phase failed i hs w).trace
        = effects w.trace ++ (List.range' i hs.length).map (Event.hook phase) ∧
      (shutdownLoop phase failed i hs w).user = shutdownStateAfter hs w.user hs.length := by
  intro hs
  induction hs with
  | nil =>
    intro i w
    simp [shutdownLoop, shutdownStateAfter]
  | cons h rest ih =>
    intro i w
    cases hr : (h w.user).1 with
    | none =>
      obtain ⟨r2, r3⟩ := ih (i + 1)
        { user := (h w.user).2, trace := w.trace ++ [Event.hook phase i] }
      simp only [shutdownLoop, hr, List.length_cons]
      refine ⟨?_, ?_⟩
      · rw [r2]
        simp [effects_append, effects_hook, List.range'_succ]
      · rw [r3]
        simp [shutdownStateAfter]
    | some e =>
      obtain ⟨r2, r3⟩ := ih (i + 1)
        (World.logError { user := (h w.user).2, trace := w.trace ++ [Event.hook phase i] }
          failed [zapInt "index" i])
      simp only [shutdownLoop, hr, List.length_cons]
      refine ⟨?_, ?_⟩
      · rw [r2]
        simp [World.logError, World.emit, effects_append, effects, List.range'_succ]
      · rw [r3]
        simp [shutdownStateAfter, World.logError, World.emit]

theorem hooksInOrder_eq (phase : Phase) (n : Nat) :
    hooksInOrder phase n = (List.range' 0 n).map (Event.hook phase) := by
  simp [hooksInOrder, List.range_eq_range']

theorem runPreShutdownHooks_spec {σ : Type} (s : Server σ) (w : World σ) :
    effects (s.runPreShutdownHooks w).trace
      = effects w.trace ++ hooksInOrder Phase.preShutdown s.preShutdownHooks.length ∧
    (s.runPreShutdownHooks w).user
      = shutdownStateAfter s.preShutdownHooks w.user s.preShutdownHooks.length := by
  unfold Server.runPreShutdownHooks
  split
  · next h =>
    have hnil : s.preShutdownHooks = [] := List.length_eq_zero.mp h
    simp [hnil, hooksInOrder, shutdownStateAfter]
  · obtain ⟨r2, r3⟩ := shutdownLoop_spec Phase.preShutdown "pre-shutdown hook failed"
      s.preShutdownHooks 0 (w.logInfo "running pre-shutdown hooks" [])
    rw [r2, r3, hooksInOrder_eq]
    simp [World.logInfo, World.emit, effects_append, effects_log]

theorem runShutdownHooks_spec {σ : Type} (s : Server σ) (w : World σ) :
    effects (s.runShutdownHooks w).trace
      = effects w.trace ++ hooksInOrder Phase.shutdown s.shutdownHooks.length ∧
    (s.runShutdownHooks w).user
      = shutdownStateAfter s.shutdownHooks w.user s.shutdownHooks.length := by
  unfold Server.runShutdownHooks
  split
  · next h =>
    have hnil : s.shutdownHooks = [] := List.length_eq_zero.mp h
    simp [hnil, hooksInOrder, shutdownStateAfter]
  · obtain ⟨r2, r3⟩ := shutdownLoop_spec Phase.shutdown "shutdown hook failed"
      s.shutdownHooks 0 (w.logInfo "running shutdown hooks" [])
    rw [r2, r3, hooksInOrder_eq]
    simp [World.logInfo, World.emit, effects_append, effects_log]

theorem runPreStartHooks_fail {σ : Type} (s : Server σ) (ctx : Context) (w : World σ)
    (k : Nat) (e : Error)
    (hlt : ∀ j, j < k → preStartOutcome ctx s.preStartHooks w.user j = none)
    (hk : preStartOutcome ctx s.preStartHooks w.user k = some e) :
    (s.runPreStartHooks ctx w).1 = some e ∧
    effects (s.runPreStartHooks ctx w).2.trace
      = effects w.trace ++ hooksInOrder Phase.preStart (k + 1) ∧
    (s.runPreStartHooks ctx w).2.user
      = preStartStateAfter ctx s.preStartHooks w.user (k + 1) := by
  unfold Server.runPreStartHooks
  split
  · next h =>
    have hnil : s.preStartHooks = [] := List.length_eq_zero.mp h
    simp [hnil, preStartOutcome] at hk
  · obtain ⟨r1, r2, r3⟩ := preStartLoop_fail ctx s.preStartHooks 0
      (w.logInfo "running pre-start hooks" []) k e hlt hk
    rw [r1, r2, r3, hooksInOrder_eq]
    simp [World.logInfo, World.emit, effects_append, effects_log]

theorem runPreStartHooks_ok {σ : Type} (s : Server σ) (ctx : Context) (w : World σ)
    (hall : ∀ j, j < s.preStartHooks.length →
      preStartOutcome ctx s.preStartHooks w.user j = none) :
    (s.runPreStartHooks ctx w).1 = none ∧
    effects (s.runPreStartHooks ctx w).2.trace
      = effects w.trace ++ hooksInOrder Phase.preStart s.preStartHooks.length ∧
    (s.runPreStartHooks ctx w).2.user
      = preStartStateAfter ctx s.preStartHooks w.user s.preStartHooks.length := by
  unfold Server.runPreStartHooks
  split
  · next h =>
    have hnil : s.preStartHooks = [] := List.length_eq_zero.mp h
    simp [hnil, hooksInOrder, preStartStateAfter]
  · obtain ⟨r1, r2, r3⟩ := preStartLoop_ok ctx s.preStartHooks 0
      (w.logInfo "running pre-start hooks" []) hall
    rw [r1, r2, r3, hooksInOrder_eq]
    simp [World.logInfo, World.emit, effects_append, effects_log]

theorem first_failure_or_all_ok (f : Nat → Option Error) (n : Nat) :
    (∀ j, j < n → f j = none) ∨
    ∃ k e, k < n ∧ (∀ j, j < k → f j = none) ∧ f k = some e := by
  induction n with
  | zero => left; intro j hj; omega
  | succ n ih =>
    rcases ih with hall | ⟨k, e, hk, hlt, hf⟩
    · cases hn : f n with
      | none =>
        left
        intro j hj
        rcases Nat.lt_succ_iff_lt_or_eq.mp hj with h | h
        · exact hall j h
        · rw [h]; exact hn
      | some e => exact Or.inr ⟨n, e, Nat.lt_succ_self n, hall, hn⟩
    · exact Or.inr ⟨k, e, Nat.lt_succ_of_lt hk, hlt, hf⟩

/-! ## Hook execution -/

/-- C1. Pre-start execution is fail-fast.  `runPreStartHooks` calls the hooks in
registration order.  If hook `k` is the first to return a failure, the hooks called
are exactly `0 .. k`, each once and in order, no later hook is called, and the
returned error is that of hook `k`.  If no hook fails, every hook is called exactly
once, in order, and the result is nil. -/
theorem runPreStartHooks_fail_fast {σ : Type} (s : Server σ) (ctx : Context) (w : World σ) :
    (∀ (k : Nat) (e : Error),
      (∀ j, j < k → preStartOutcome ctx s.preStartHooks w.user j = none) →
      preStartOutcome ctx s.preStartHooks w.user k = some e →
        (s.runPreStartHooks ctx w).1 = some e ∧
        newEffects w (s.runPreStartHooks ctx w).2 = hooksInOrder Phase.preStart (k + 1) ∧
        (s.runPreStartHooks ctx w).2.user
          = preStartStateAfter ctx s.preStartHooks w.user (k + 1)) ∧
    ((∀ j, j < s.preStartHooks.length →
        preStartOutcome ctx s.preStartHooks w.user j = none) →
        (s.runPreStartHooks ctx w).1 = none ∧
        newEffects w (s.runPreStartHooks ctx w).2
          = hooksInOrder Phase.preStart s.preStartHooks.length ∧
        (s.runPreStartHooks ctx w).2.user
          = preStartStateAfter ctx s.preStartHooks w.user s.preStartHooks.length) := by
  constructor
  · intro k e hlt hk
    obtain ⟨r1, r2, r3⟩ := runPreStartHooks_fail s ctx w k e hlt hk
    exact ⟨r1, by simp [newEffects, r2], r3⟩
  · intro hall
    obtain ⟨r1, r2, r3⟩ := runPreStartHooks_ok s ctx w hall
    exact ⟨r1, by simp [newEffects, r2], r3⟩

/-- Witness for C1: with hooks `[ok, fail, ok]` exactly the first two run and the
failure of the second is returned. -/
theorem runPreStartHooks_fail_fast_witness :
    (exampleServer.runPreStartHooks background emptyWorld).1 = some "boom" ∧
    newEffects emptyWorld (exampleServer.runPreStartHooks background emptyWorld).2
      = [Event.hook Phase.preStart 0, Event.hook Phase.preStart 1] ∧
    (exampleServer.runPreStartHooks background emptyWorld).2.user = ["a", "b"] :=
  (runPreStartHooks_fail_fast exampleServer background emptyWorld).1 1 "boom"
    (by intro j hj; interval_cases j; rfl) rfl

/-- C2. Pre-shutdown and shutdown execution is best-effort: `runPreShutdownHooks` and
`runShutdownHooks` call every hook of their list exactly once, in registration
order, whichever hooks return a failure. -/
theorem runShutdownHooks_best_effort {σ : Type} (s : Server σ) (w : World σ) :
    (newEffects w (s.runPreShutdownHooks w)
        = hooksInOrder Phase.preShutdown s.preShutdownHooks.length ∧
      (s.runPreShutdownHooks w).user
        = shutdownStateAfter s.preShutdownHooks w.user s.preShutdownHooks.length) ∧
    (newEffects w (s.runShutdownHooks w)
        = hooksInOrder Phase.shutdown s.shutdownHooks.length ∧
      (s.runShutdownHooks w).user
        = shutdownStateAfter s.shutdownHooks w.user s.shutdownHooks.length) := by
  obtain ⟨a1, a2⟩ := runPreShutdownHooks_spec s w
  obtain ⟨b1, b2⟩ := runShutdownHooks_spec s w
  exact ⟨⟨by simp [newEffects, a1], a2⟩, ⟨by simp [newEffects, b1], b2⟩⟩

/-! ## `Stop` and `Start` -/

theorem effects_transportShutdown : effects [Event.transportShutdown] = [Event.transportShutdown] :=
  rfl

theorem effects_logSync : effects [Event.logSync] = [] := rfl

theorem Stop_spec {σ : Type} (t : Transport σ) (s : Server σ) (w : World σ) :
    effects (s.Stop t w).2.trace
      = effects w.trace ++ (hooksInOrder Phase.preShutdown s.preShutdownHooks.length
          ++ [Event.transportShutdown]
          ++ hooksInOrder Phase.shutdown s.shutdownHooks.length) ∧
    (s.Stop t w).1
      = (t.Shutdown s.httpServer
          (shutdownStateAfter s.preShutdownHooks w.user s.preShutdownHooks.length)).1 ∧
    (s.Stop t w).2.user
      = shutdownStateAfter s.shutdownHooks
          (t.Shutdown s.httpServer
            (shutdownStateAfter s.preShutdownHooks w.user s.preShutdownHooks.length)).2
          s.shutdownHooks.length := by
  obtain ⟨a1, a2⟩ := runPreShutdownHooks_spec s (w.logInfo "stopping connect service" [])
  have a2 : (s.runPreShutdownHooks (w.logInfo "stopping connect service" [])).user
      = shutdownStateAfter s.preShutdownHooks w.user s.preShutdownHooks.length := a2
  have a1 : effects (s.runPreShutdownHooks (w.logInfo "stopping connect service" [])).trace
      = effects w.trace ++ hooksInOrder Phase.preShutdown s.preShutdownHooks.length := by
    rw [a1]
    simp [World.logInfo, World.emit, effects_append, effects_log]
  simp only [Server.Stop]
  refine ⟨?_, ?_, ?_⟩
  · simp only [World.emit, effects_append]
    rw [(runShutdownHooks_spec s _).1]
    simp [World.emit, effects_append, a1, effects_transportShutdown, effects_logSync]
  · simp [World.emit, a2]
  · simp only [World.emit]
    rw [(runShutdownHooks_spec s _).2]
    simp [World.emit, a2]

/-- C3. `Stop` performs, in this order, all pre-shutdown hooks, the transport
shutdown, and all shutdown hooks (whatever the outcome of the transport shutdown);
the value it returns is exactly the error of the transport shutdown, nil when that
succeeded, whichever hooks failed.  The state `Stop` leaves is the one obtained by
running every pre-shutdown hook in order, then the transport shutdown, then every
shutdown hook in order. -/
theorem Stop_order_and_result {σ : Type} (t : Transport σ) (s : Server σ) (w : World σ) :
    newEffects w (s.Stop t w).2
      = hooksInOrder Phase.preShutdown s.preShutdownHooks.length
          ++ [Event.transportShutdown]
          ++ hooksInOrder Phase.shutdown s.shutdownHooks.length ∧
    (s.Stop t w).1
      = (t.Shutdown s.httpServer
          (shutdownStateAfter s.preShutdownHooks w.user s.preShutdownHooks.length)).1 ∧
    (s.Stop t w).2.user
      = shutdownStateAfter s.shutdownHooks
          (t.Shutdown s.httpServer
            (shutdownStateAfter s.preShutdownHooks w.user s.preShutdownHooks.length)).2
          s.shutdownHooks.length := by
  obtain ⟨r1, r2, r3⟩ := Stop_spec t s w
  exact ⟨by simp [newEffects, r1], r2, r3⟩

theorem effects_nil : effects [] = [] := rfl

theorem effects_cons_log (l : Level) (m : String) (f : List (String × String))
    (tr : List Event) : effects (Event.log l m f :: tr) = effects tr := rfl

theorem effects_cons_listen (a b : String) (tr : List Event) :
    effects (Event.listen a b :: tr) = Event.listen a b :: effects tr := rfl

theorem effects_cons_serve (a : String) (tr : List Event) :
    effects (Event.serve a :: tr) = Event.serve a :: effects tr := rfl

theorem Start_fail {σ : Type} (t : Transport σ) (s : Server σ) (ctx : Context) (w : World σ)
    (k : Nat) (e : Error)
    (hlt : ∀ j, j < k → preStartOutcome ctx s.preStartHooks w.user j = none)
    (hk : preStartOutcome ctx s.preStartHooks w.user k = some e) :
    (s.Start t ctx w).1 = some e ∧
    effects (s.Start t ctx w).2.trace
      = effects w.trace ++ hooksInOrder Phase.preStart (k + 1) := by
  obtain ⟨r1, r2, _⟩ := runPreStartHooks_fail s ctx
    (w.logInfo "starting connect service"
      [zapString "addr" s.cfg.Base.BindAddress, zapInt "port" s.cfg.GrpcPort]) k e hlt hk
  simp only [Server.Start]
  split
  · next err w1 heq =>
    rw [heq] at r1 r2
    simp only at r1 r2
    refine ⟨r1, ?_⟩
    rw [r2]
    simp [World.logInfo, World.emit, effects_append, effects_log]
  · next w1 heq =>
    rw [heq] at r1
    simp at r1

theorem Start_ok {σ : Type} (t : Transport σ) (s : Server σ) (ctx : Context) (w : World σ)
    (hall : ∀ j, j < s.preStartHooks.length →
      preStartOutcome ctx s.preStartHooks w.user j = none) :
    ∃ post, effects (s.Start t ctx w).2.trace
      = effects w.trace ++ (hooksInOrder Phase.preStart s.preStartHooks.length
          ++ Event.listen "tcp" (s.cfg.Base.BindAddress ++ ":" ++ toString s.cfg.GrpcPort)
            :: post) ∧
      ∀ a b, Event.listen a b ∉ post := by
  obtain ⟨r1, r2, _⟩ := runPreStartHooks_ok s ctx
    (w.logInfo "starting connect service"
      [zapString "addr" s.cfg.Base.BindAddress, zapInt "port" s.cfg.GrpcPort]) hall
  have r2 : effects (s.runPreStartHooks ctx (w.logInfo "starting connect service"
      [zapString "addr" s.cfg.Base.BindAddress, zapInt "port" s.cfg.GrpcPort])).2.trace
      = effects w.trace ++ hooksInOrder Phase.preStart s.preStartHooks.length := by
    rw [r2]
    simp [World.logInfo, World.emit, effects_append, effects_log]
  simp only [Server.Start]
  split
  · next err w1 heq =>
    rw [heq] at r1
    simp at r1
  · next w1 heq =>
    rw [heq] at r2
    simp only at r2
    split
    · next err u hl =>
      refine ⟨[], ?_, by simp⟩
      simp [World.emit, effects_append, r2, effects_cons_listen, effects_nil]
    · next lis u hl =>
      refine ⟨[Event.serve (s.cfg.Base.BindAddress ++ ":" ++ toString s.cfg.GrpcPort)], ?_,
        by simp⟩
      simp [World.emit, World.logInfo, effects_append, r2, effects_cons_listen,
        effects_cons_serve, effects_cons_log, effects_nil]

theorem listen_not_mem_hooksInOrder (phase : Phase) (n : Nat) (a b : String) :
    Event.listen a b ∉ hooksInOrder phase n := by
  simp [hooksInOrder]

theorem serve_not_mem_hooksInOrder (phase : Phase) (n : Nat) (a : String) :
    Event.serve a ∉ hooksInOrder phase n := by
  simp [hooksInOrder]

/-- C4. A pre-start hook failure is fatal to startup.  If hook `k` is the first
pre-start hook to fail, `Start` returns that hook's error and its effects are the
calls of hooks `0 .. k` only: the listener is never opened and nothing is served.
Conversely, whenever `Start` opens the listener, every registered pre-start hook has
returned success and all of them were called, in order, before the listener was
opened. -/
theorem Start_preStart_failure_fatal {σ : Type} (t : Transport σ) (s : Server σ)
    (ctx : Context) (w : World σ) :
    (∀ (k : Nat) (e : Error),
      (∀ j, j < k → preStartOutcome ctx s.preStartHooks w.user j = none) →
      preStartOutcome ctx s.preStartHooks w.user k = some e →
        (s.Start t ctx w).1 = some e ∧
        newEffects w (s.Start t ctx w).2 = hooksInOrder Phase.preStart (k + 1) ∧
        (∀ a b, Event.listen a b ∉ newEffects w (s.Start t ctx w).2) ∧
        (∀ a, Event.serve a ∉ newEffects w (s.Start t ctx w).2)) ∧
    (∀ a b, Event.listen a b ∈ newEffects w (s.Start t ctx w).2 →
      (∀ j, j < s.preStartHooks.length →
        preStartOutcome ctx s.preStartHooks w.user j = none) ∧
      ∃ post, newEffects w (s.Start t ctx w).2
          = hooksInOrder Phase.preStart s.preStartHooks.length ++ Event.listen a b :: post ∧
        ∀ c d, Event.listen c d ∉ post) := by
  have hfail : ∀ (k : Nat) (e : Error),
      (∀ j, j < k → preStartOutcome ctx s.preStartHooks w.user j = none) →
      preStartOutcome ctx s.preStartHooks w.user k = some e →
        (s.Start t ctx w).1 = some e ∧
        newEffects w (s.Start t ctx w).2 = hooksInOrder Phase.preStart (k + 1) := by
    intro k e hlt hk
    obtain ⟨r1, r2⟩ := Start_fail t s ctx w k e hlt hk
    exact ⟨r1, by simp [newEffects, r2]⟩
  constructor
  · intro k e hlt hk
    obtain ⟨r1, r2⟩ := hfail k e hlt hk
    refine ⟨r1, r2, ?_, ?_⟩
    · intro a b
      rw [r2]
      exact listen_not_mem_hooksInOrder _ _ a b
    · intro a
      rw [r2]
      exact serve_not_mem_hooksInOrder _ _ a
  · intro a b hmem
    rcases first_failure_or_all_ok (preStartOutcome ctx s.preStartHooks w.user)
      s.preStartHooks.length with hall | ⟨k, e, _, hlt, hk⟩
    · refine ⟨hall, ?_⟩
      obtain ⟨post, hp, hnot⟩ := Start_ok t s ctx w hall
      have hnew : newEffects w (s.Start t ctx w).2
          = hooksInOrder Phase.preStart s.preStartHooks.length
            ++ Event.listen "tcp" (s.cfg.Base.BindAddress ++ ":" ++ toString s.cfg.GrpcPort)
              :: post := by
        simp [newEffects, hp]
      rw [hnew] at hmem
      rcases List.mem_append.mp hmem with h | h
      · exact absurd h (listen_not_mem_hooksInOrder _ _ a b)
      · rcases List.mem_cons.mp h with h | h
        · rw [hnew, h]
          exact ⟨post, rfl, hnot⟩
        · exact absurd h (hnot a b)
    · obtain ⟨_, r2⟩ := hfail k e hlt hk
      rw [r2] at hmem
      exact absurd hmem (listen_not_mem_hooksInOrder _ _ a b)

/-- Witness for C4: with hooks `[ok, fail, ok]`, `Start` returns the failure of the
second hook after calling the first two hooks and nothing else; with two succeeding
hooks the listener is opened after both were called. -/
theorem Start_preStart_failure_fatal_witness :
    ((exampleServer.Start okTransport background emptyWorld).1 = some "boom" ∧
      newEffects emptyWorld (exampleServer.Start okTransport background emptyWorld).2
        = [Event.hook Phase.preStart 0, Event.hook Phase.preStart 1]) ∧
    (∃ post, newEffects emptyWorld (healthyServer.Start okTransport background emptyWorld).2
        = [Event.hook Phase.preStart 0, Event.hook Phase.preStart 1]
          ++ Event.listen "tcp" "0.0.0.0:50051" :: post ∧
      ∀ c d, Event.listen c d ∉ post) :=
  have h := (Start_preStart_failure_fatal okTransport exampleServer background emptyWorld).1
    1 "boom" (by intro j hj; interval_cases j; rfl) rfl
  have g := (Start_preStart_failure_fatal okTransport healthyServer background emptyWorld).2
    "tcp" "0.0.0.0:50051" (by decide)
  ⟨⟨h.1, h.2.1⟩, g.2⟩

/-! ## `NewServer` -/

theorem Register_ok_cfg {σ : Type} (ext : Externals) (sv : Service σ) (server : Server σ)
    (opts : List HandlerOption) (path : String) (s : Server σ)
    (h : sv.Register ext server opts = Except.ok (path, s)) :
    path = (sv.Factory sv.Handler (server.defaultOptions ext opts)).1 ∧
    s.mux = server.mux ++ [sv.Factory sv.Handler (server.defaultOptions ext opts)] ∧
    s.preStartHooks = server.preStartHooks ∧
    s.preShutdownHooks = server.preShutdownHooks ∧
    s.shutdownHooks = server.shutdownHooks ∧
    s.cfg = server.cfg := by
  unfold Service.Register ServeMux.Handle at h
  cases hp : ext.muxPanics server.mux (sv.Factory sv.Handler (server.defaultOptions ext opts)).1 with
  | true => simp [hp] at h
  | false =>
    simp only [hp, Bool.false_eq_true, if_false, Except.ok.injEq, Prod.mk.injEq] at h
    obtain ⟨h1, h2⟩ := h
    subst h2
    exact ⟨h1.symm, rfl, rfl, rfl, rfl, rfl⟩

theorem defaultOptions_server {σ : Type} (ext : Externals) (s s1 : Server σ)
    (opts : List HandlerOption) : s1.defaultOptions ext opts = s.defaultOptions ext opts := rfl

theorem registerServices_ok {σ : Type} (ext : Externals) (ho : List HandlerOption) :
    ∀ (svcs : List (ServiceRegistrar σ)) (s : Server σ) (names : List String)
      (s1 : Server σ) (names1 : List String),
      registerServices ext ho svcs s names = Except.ok (s1, names1) →
      s1.mux = s.mux ++ svcs.map (fun sv => sv.Factory sv.Handler (s.defaultOptions ext ho)) ∧
      names1 = names ++ svcs.map (fun sv =>
        ReplaceAll (sv.Factory sv.Handler (s.defaultOptions ext ho)).1 "/" "") ∧
      s1.preStartHooks = s.preStartHooks ∧
      s1.preShutdownHooks = s.preShutdownHooks ∧
      s1.shutdownHooks = s.shutdownHooks ∧
      s1.cfg = s.cfg := by
  intro svcs
  induction svcs with
  | nil =>
    intro s names s1 names1 h
    simp only [registerServices, Except.ok.injEq, Prod.mk.injEq] at h
    obtain ⟨h1, h2⟩ := h
    subst h1 h2
    simp
  | cons sv rest ih =>
    intro s names s1 names1 h
    unfold registerServices at h
    cases hr : sv.Register ext s ho with
    | error p => simp [hr] at h
    | ok r =>
      obtain ⟨path, s2⟩ := r
      simp only [hr] at h
      obtain ⟨p1, p2, p3, p4, p5, p6⟩ := Register_ok_cfg ext sv s ho path s2 hr
      obtain ⟨q1, q2, q3, q4, q5, q6⟩ := ih s2 _ s1 names1 h
      refine ⟨?_, ?_, q3.trans p3, q4.trans p4, q5.trans p5, q6.trans p6⟩
      · rw [q1, p2]
        simp [defaultOptions_server ext s s2]
      · rw [q2, p1]
        simp [defaultOptions_server ext s s2]

theorem registerServices_total {σ : Type} (ext : Externals) (ho : List HandlerOption)
    (hmux : ∀ m p, ext.muxPanics m p = false) :
    ∀ (svcs : List (ServiceRegistrar σ)) (s : Server σ) (names : List String),
      ∃ r, registerServices ext ho svcs s names = Except.ok r := by
  intro svcs
  induction svcs with
  | nil =>
    intro s names
    exact ⟨_, rfl⟩
  | cons sv rest ih =>
    intro s names
    simp only [registerServices, Service.Register, ServeMux.Handle, hmux]
    exact ih _ _

theorem NewServer_ok {σ : Type} (ext : Externals) (cfg : Config) (factory : HandlerFactory σ)
    (handler : Handler σ) (opts : List (ServerOption σ)) (s : Server σ)
    (h : NewServer ext cfg factory handler opts = Except.ok s) :
    s.mux = mountedRoutes ext cfg factory handler opts ++
      [(reflectV1Path, HttpHandler.reflectV1
          ((mountedRoutes ext cfg factory handler opts).map
            (fun m => ReplaceAll m.1 "/" ""))),
        (reflectV1AlphaPath, HttpHandler.reflectV1Alpha
          ((mountedRoutes ext cfg factory handler opts).map
            (fun m => ReplaceAll m.1 "/" "")))] ∧
    s.preStartHooks = handler.PreStart.toList ∧
    s.preShutdownHooks = handler.PreShutdown.toList ∧
    s.shutdownHooks = handler.Shutdown.toList := by
  unfold NewServer at h
  simp only [List.nil_append, List.singleton_append] at h
  split at h
  · simp at h
  · next s1 names1 hreg =>
    obtain ⟨q1, q2, q3, q4, q5, _⟩ := registerServices_ok ext _ _ _ _ s1 names1 hreg
    cases hp1 : ext.muxPanics s1.mux reflectV1Path with
    | true => simp [ServeMux.Handle, hp1] at h
    | false =>
      cases hp2 : ext.muxPanics (s1.mux ++ [(reflectV1Path, HttpHandler.reflectV1 names1)])
          reflectV1AlphaPath with
      | true => simp [ServeMux.Handle, hp1, hp2] at h
      | false =>
        simp only [ServeMux.Handle, hp1, hp2, Bool.false_eq_true, if_false,
          Except.ok.injEq] at h
        subst h
        refine ⟨?_, ?_, ?_, ?_⟩
        · cases handler.PreStart <;> cases handler.PreShutdown <;> cases handler.Shutdown <;>
            simp [Server.RegisterPreStartHook, Server.RegisterPreShutdownHook,
              Server.RegisterShutdownHook, q1, q2, mountedRoutes, mountedServices, NewServeMux,
              Function.comp_def]
        · cases handler.PreStart <;> cases handler.PreShutdown <;> cases handler.Shutdown <;>
            simp [Server.RegisterPreStartHook, Server.RegisterPreShutdownHook,
              Server.RegisterShutdownHook, q3]
        · cases handler.PreStart <;> cases handler.PreShutdown <;> cases handler.Shutdown <;>
            simp [Server.RegisterPreStartHook, Server.RegisterPreShutdownHook,
              Server.RegisterShutdownHook, q4]
        · cases handler.PreStart <;> cases handler.PreShutdown <;> cases handler.Shutdown <;>
            simp [Server.RegisterPreStartHook, Server.RegisterPreShutdownHook,
              Server.RegisterShutdownHook, q5]

theorem NewServer_total {σ : Type} (ext : Externals) (cfg : Config) (factory : HandlerFactory σ)
    (handler : Handler σ) (opts : List (ServerOption σ))
    (hmux : ∀ m p, ext.muxPanics m p = false) :
    ∃ s, NewServer ext cfg factory handler opts = Except.ok s := by
  unfold NewServer
  simp only [List.nil_append, List.singleton_append]
  obtain ⟨r, hr⟩ := registerServices_total ext (parseOptions opts).handlerOptions hmux
    (⟨factory, handler⟩ :: (parseOptions opts).additionalServices)
    { logger := LoggerName, httpServer := HttpServer.zero, mux := NewServeMux,
      preStartHooks := [], preShutdownHooks := [], shutdownHooks := [], cfg := cfg } []
  rw [hr]
  simp only [ServeMux.Handle, hmux]
  exact ⟨_, rfl⟩

/-- C5. The server returned by `NewServer` holds, in each of its three hook lists,
exactly the primary handler's method when the handler has that capability and
nothing when it has not (for every option list, in particular without additional
services); a handler with none of the capabilities gives three empty lists, and
construction succeeds whenever the multiplexer accepts the registrations. -/
theorem NewServer_registers_capabilities {σ : Type} (ext : Externals) (cfg : Config)
    (factory : HandlerFactory σ) (handler : Handler σ) (opts : List (ServerOption σ)) :
    (∀ s, NewServer ext cfg factory handler opts = Except.ok s →
      s.preStartHooks = handler.PreStart.toList ∧
      s.preShutdownHooks = handler.PreShutdown.toList ∧
      s.shutdownHooks = handler.Shutdown.toList) ∧
    (∀ s, NewServer ext cfg factory handler opts = Except.ok s →
      handler.PreStart = none → handler.PreShutdown = none → handler.Shutdown = none →
      s.preStartHooks = [] ∧ s.preShutdownHooks = [] ∧ s.shutdownHooks = []) ∧
    ((∀ m p, ext.muxPanics m p = false) →
      ∃ s, NewServer ext cfg factory handler opts = Except.ok s) := by
  refine ⟨?_, ?_, ?_⟩
  · intro s h
    exact (NewServer_ok ext cfg factory handler opts s h).2
  · intro s h h1 h2 h3
    obtain ⟨_, r1, r2, r3⟩ := NewServer_ok ext cfg factory handler opts s h
    rw [r1, r2, r3, h1, h2, h3]
    exact ⟨rfl, rfl, rfl⟩
  · intro hmux
    exact NewServer_total ext cfg factory handler opts hmux

/-- Witness for C5: a handler with `PreStart` and `Shutdown` but no `PreShutdown`,
and a handler with no capability, each mounted at `/a` without additional services. -/
theorem NewServer_registers_capabilities_witness :
    (∃ s, NewServer goExternals exampleConfig (pathFactory "/a") partialHandler [] = Except.ok s ∧
      s.preStartHooks = [okPreStart "ps"] ∧
      s.preShutdownHooks = [] ∧
      s.shutdownHooks = [okHook "sd"]) ∧
    (∃ s, NewServer goExternals exampleConfig (pathFactory "/a") plainHandler [] = Except.ok s ∧
      s.preStartHooks = [] ∧ s.preShutdownHooks = [] ∧ s.shutdownHooks = []) :=
  ⟨⟨_, rfl, (NewServer_registers_capabilities goExternals exampleConfig (pathFactory "/a")
      partialHandler []).1 _ rfl⟩,
    ⟨_, rfl, (NewServer_registers_capabilities goExternals exampleConfig (pathFactory "/a")
      plainHandler []).2.1 _ rfl rfl rfl rfl⟩⟩

/-- C6 (the code departs from the claim). With a primary handler without lifecycle
methods and an additional service whose handler has all three, `NewServer` mounts
both services and returns a server whose three hook lists are empty: the methods of
the additional handler are not registered. -/
theorem NewServer_additional_handler_hooks_unregistered :
    fullHandler.PreStart.isSome = true ∧ fullHandler.PreShutdown.isSome = true ∧
    fullHandler.Shutdown.isSome = true ∧
    ∃ s, NewServer goExternals exampleConfig (pathFactory "/a") plainHandler
        [WithAdditionalService (pathFactory "/b") fullHandler] = Except.ok s ∧
      s.mux.map Prod.fst = ["/a", "/b", reflectV1Path, reflectV1AlphaPath] ∧
      s.preStartHooks = [] ∧ s.preShutdownHooks = [] ∧ s.shutdownHooks = [] :=
  ⟨rfl, rfl, rfl, _, rfl, rfl, rfl, rfl, rfl⟩

/-! ## Configuration -/

/-- C7. Port validation: `validatePort p` fails exactly when `p < 1` or `p > 65535`,
and `Validate` returns an error exactly when `GrpcPort` or `HttpPort` lies outside
`1 .. 65535`; ports `0` and `70000` are rejected and port `8080` is accepted. -/
theorem Validate_iff_port_out_of_range :
    (∀ p : Int, (validatePort p).isSome = true ↔ (p < 1 ∨ p > 65535)) ∧
    (∀ (c : Config) (ctx : Context), (c.Validate ctx).isSome = true ↔
      ((c.GrpcPort < 1 ∨ c.GrpcPort > 65535) ∨ (c.HttpPort < 1 ∨ c.HttpPort > 65535))) ∧
    (validatePort 0).isSome = true ∧ (validatePort 70000).isSome = true ∧
    validatePort 8080 = none := by
  have hp : ∀ p : Int, (validatePort p).isSome = true ↔ (p < 1 ∨ p > 65535) := by
    intro p
    unfold validatePort MaxUint16
    split <;> simp_all
  refine ⟨hp, ?_, ?_, ?_, ?_⟩
  · intro c ctx
    rw [← hp c.GrpcPort, ← hp c.HttpPort]
    unfold Config.Validate
    cases validatePort c.GrpcPort <;> cases validatePort c.HttpPort <;> simp [mapSet]
  · exact (hp 0).mpr (by decide)
  · exact (hp 70000).mpr (by decide)
  · have h := hp 8080
    cases hv : validatePort 8080 with
    | none => rfl
    | some e =>
      rw [hv] at h
      have := h.mp rfl
      omega

/-! ## Hook registration -/

/-- C8. Hook registration is append-only and FIFO without deduplication: each
`Register...Hook` call leaves its own list equal to the old list followed by the
given hooks, in the given order and with duplicates kept, and leaves the two other
hook lists unchanged. -/
theorem RegisterHook_appends {σ : Type} (s : Server σ) :
    (∀ hs : List (PreStartHook σ),
      (s.RegisterPreStartHook hs).preStartHooks = s.preStartHooks ++ hs ∧
      (s.RegisterPreStartHook hs).preShutdownHooks = s.preShutdownHooks ∧
      (s.RegisterPreStartHook hs).shutdownHooks = s.shutdownHooks) ∧
    (∀ hs : List (PreShutdownHook σ),
      (s.RegisterPreShutdownHook hs).preShutdownHooks = s.preShutdownHooks ++ hs ∧
      (s.RegisterPreShutdownHook hs).preStartHooks = s.preStartHooks ∧
      (s.RegisterPreShutdownHook hs).shutdownHooks = s.shutdownHooks) ∧
    (∀ hs : List (ShutdownHook σ),
      (s.RegisterShutdownHook hs).shutdownHooks = s.shutdownHooks ++ hs ∧
      (s.RegisterShutdownHook hs).preStartHooks = s.preStartHooks ∧
      (s.RegisterShutdownHook hs).preShutdownHooks = s.preShutdownHooks) :=
  ⟨fun _ => ⟨rfl, rfl, rfl⟩, fun _ => ⟨rfl, rfl, rfl⟩, fun _ => ⟨rfl, rfl, rfl⟩⟩

/-! ## Interceptor chain -/

/-- C9. The interceptor chain is fixed and deterministic: `defaultOptions` yields
the interceptor option holding the tracing interceptor first when its construction
succeeded and not at all when it failed, followed by the metadata interceptor, then
the panic-recovery option, then the caller's options in the order given; the result
depends only on the caller's options and the outcome of the tracing construction. -/
theorem defaultOptions_chain {σ : Type} (ext : Externals) (s : Server σ)
    (opts : List HandlerOption) :
    (∀ interceptor, ext.otelNewInterceptor = Except.ok interceptor →
      s.defaultOptions ext opts
        = HandlerOption.withInterceptors [interceptor, Interceptor.metadata]
          :: HandlerOption.withRecover :: opts) ∧
    (∀ err, ext.otelNewInterceptor = Except.error err →
      s.defaultOptions ext opts
        = HandlerOption.withInterceptors [Interceptor.metadata]
          :: HandlerOption.withRecover :: opts) ∧
    (∀ (ext1 : Externals) (s1 : Server σ), ext1.otelNewInterceptor = ext.otelNewInterceptor →
      s1.defaultOptions ext1 opts = s.defaultOptions ext opts) := by
  refine ⟨?_, ?_, ?_⟩
  · intro interceptor h
    simp [Server.defaultOptions, h]
  · intro err h
    simp [Server.defaultOptions, h]
  · intro ext1 s1 h
    simp [Server.defaultOptions, h]

/-- Witness for C9: two caller options, with tracing available and with tracing
construction failing. -/
theorem defaultOptions_chain_witness :
    exampleServer.defaultOptions goExternals [HandlerOption.custom 7, HandlerOption.custom 3]
      = [HandlerOption.withInterceptors [Interceptor.tracing, Interceptor.metadata],
          HandlerOption.withRecover, HandlerOption.custom 7, HandlerOption.custom 3] ∧
    exampleServer.defaultOptions noTracingExternals [HandlerOption.custom 7, HandlerOption.custom 3]
      = [HandlerOption.withInterceptors [Interceptor.metadata],
          HandlerOption.withRecover, HandlerOption.custom 7, HandlerOption.custom 3] :=
  ⟨(defaultOptions_chain goExternals exampleServer
      [HandlerOption.custom 7, HandlerOption.custom 3]).1 Interceptor.tracing rfl,
    (defaultOptions_chain noTracingExternals exampleServer
      [HandlerOption.custom 7, HandlerOption.custom 3]).2.1 "otel unavailable" rfl⟩

/-! ## Reflection names -/

theorem replaceScan_slash (cs : List Char) :
    replaceScan ['/'] [] 0 cs = cs.filter (fun c => c != '/') := by
  induction cs with
  | nil => rfl
  | cons c cs ih =>
    by_cases hc : c = '/'
    · subst hc
      simp [replaceScan, ih]
    · have hne : ('/' == c) = false := by
        simp only [beq_eq_false_iff_ne, ne_eq]
        exact fun h => hc h.symm
      simp [replaceScan, List.isPrefixOf, hne, ih, hc]

theorem ReplaceAll_slash (path : String) :
    ReplaceAll path "/" "" = String.mk (path.data.filter (fun c => c != '/')) := by
  have h1 : ("/" : String).data = ['/'] := rfl
  have h2 : ("" : String).data = [] := rfl
  simp [ReplaceAll, h1, h2, replaceScan_slash]

theorem parseOptions_foldl_services {σ : Type} :
    ∀ (specs : List (OptionSpec σ)) (o : options σ),
      ((specs.map OptionSpec.toOption).foldl (fun o opt => opt o) o).additionalServices
        = o.additionalServices ++ OptionSpec.services specs := by
  intro specs
  induction specs with
  | nil =>
    intro o
    simp only [List.map_nil, List.foldl_nil, OptionSpec.services, List.filterMap_nil,
      List.append_nil]
  | cons spec rest ih =>
    intro o
    simp only [List.map_cons, List.foldl_cons]
    rw [ih]
    cases spec with
    | additionalService f hd =>
      show (o.additionalServices ++ [⟨f, hd⟩]) ++ OptionSpec.services rest = _
      simp only [OptionSpec.services, List.filterMap_cons, List.append_assoc,
        List.singleton_append]
    | handlerOptions ho =>
      show o.additionalServices ++ OptionSpec.services rest = _
      simp only [OptionSpec.services, List.filterMap_cons]
    | corsOptions co =>
      show o.additionalServices ++ OptionSpec.services rest = _
      simp only [OptionSpec.services, List.filterMap_cons]

theorem parseOptions_services {σ : Type} (specs : List (OptionSpec σ)) :
    (parseOptions (specs.map OptionSpec.toOption)).additionalServices
      = OptionSpec.services specs := by
  unfold parseOptions
  rw [parseOptions_foldl_services]
  rfl

/-- C10. The names given to the reflection endpoint by `NewServer` are one per
mounted service, in mount order (the primary service first, then the additional
services in the order supplied); each name is the service's mount path with every
`/` removed, so no name contains a `/`.  Construction succeeds whenever the
multiplexer accepts the registrations. -/
theorem NewServer_reflection_names {σ : Type} (ext : Externals) (cfg : Config)
    (factory : HandlerFactory σ) (handler : Handler σ) (specs : List (OptionSpec σ)) :
    (∀ s, NewServer ext cfg factory handler (specs.map OptionSpec.toOption) = Except.ok s →
      ∃ (routes : List (String × HttpHandler)) (names : List String),
        s.mux = routes ++ [(reflectV1Path, HttpHandler.reflectV1 names),
          (reflectV1AlphaPath, HttpHandler.reflectV1Alpha names)] ∧
        routes = ((⟨factory, handler⟩ : Service σ) :: OptionSpec.services specs).map
          (fun sv => sv.Factory sv.Handler (s.defaultOptions ext
            (parseOptions (specs.map OptionSpec.toOption)).handlerOptions)) ∧
        names = routes.map (fun r => String.mk (r.1.data.filter (fun c => c != '/'))) ∧
        names.length = 1 + (OptionSpec.services specs).length ∧
        ∀ name, name ∈ names → '/' ∉ name.data) ∧
    ((∀ m p, ext.muxPanics m p = false) →
      ∃ s, NewServer ext cfg factory handler (specs.map OptionSpec.toOption)
        = Except.ok s) := by
  refine ⟨?_, fun hmux => NewServer_total ext cfg factory handler _ hmux⟩
  intro s h
  obtain ⟨r, _⟩ := NewServer_ok ext cfg factory handler _ s h
  refine ⟨mountedRoutes ext cfg factory handler (specs.map OptionSpec.toOption), _, r, ?_,
    ?_, ?_, ?_⟩
  · simp only [mountedRoutes, mountedServices, parseOptions_services]
    rfl
  · simp [ReplaceAll_slash]
  · simp [mountedRoutes, mountedServices, parseOptions_services]
    omega
  · intro name hname
    simp only [List.mem_map] at hname
    obtain ⟨m, _, hm⟩ := hname
    rw [← hm, ReplaceAll_slash]
    simp [List.mem_filter]

/-- Witness for C10: mount paths `/a` and `/b` yield the names `a` and `b`. -/
theorem NewServer_reflection_names_witness :
    ∃ s, NewServer goExternals exampleConfig (pathFactory "/a") plainHandler
        [WithAdditionalService (pathFactory "/b") fullHandler] = Except.ok s ∧
      s.mux = [("/a", HttpHandler.route 0), ("/b", HttpHandler.route 2),
        (reflectV1Path, HttpHandler.reflectV1 ["a", "b"]),
        (reflectV1AlphaPath, HttpHandler.reflectV1Alpha ["a", "b"])] := by
  refine ⟨_, rfl, ?_⟩
  obtain ⟨routes, names, h1, h2, h3, _, _⟩ :=
    (NewServer_reflection_names goExternals exampleConfig (pathFactory "/a") plainHandler
      [OptionSpec.additionalService (pathFactory "/b") fullHandler]).1 _ rfl
  rw [h1, h3, h2]
  decide

/-! ## Panic recovery -/

/-- C11. For every panic value, whether or not it is an error, `recover` returns a
non-nil structured error whose code is `Internal`; when the panic value is an error,
that error is the wrapped cause, and otherwise there is no wrapped cause.  `recover`
is total: it always returns, and its only effect is one error log line. -/
theorem recover_returns_internal_error {σ : Type} (s : Server σ) (ctx : Context)
    (spec : Spec) (header : Header) (a : Any) (w : World σ) :
    (∃ e, (s.recover ctx spec header a w).1 = some e ∧ e.code = Code.internal ∧
      (∀ err, a = Any.error err → e.err = some err) ∧
      ((∀ err, a ≠ Any.error err) → e.err = none)) ∧
    (s.recover ctx spec header a w).2.user = w.user ∧
    newEffects w (s.recover ctx spec header a w).2 = [] := by
  refine ⟨⟨NewError Code.internal a.asError, rfl, rfl, ?_, ?_⟩, rfl, ?_⟩
  · intro err h
    subst h
    rfl
  · intro h
    cases a with
    | error err => exact absurd rfl (h err)
    | nil => rfl
    | string _ => rfl
    | int _ => rfl
    | other _ => rfl
  · simp [newEffects, Server.recover, World.logError, World.emit, effects_append,
      effects_log]

/-- Witness for C11: a panic carrying an error, and a panic carrying a string. -/
theorem recover_returns_internal_error_witness :
    (exampleServer.recover background { Procedure := "/kitchen.v1.KitchenService/GetPost" } []
      (Any.error "index out of range") emptyWorld).1
      = some { code := Code.internal, err := some "index out of range" } ∧
    (exampleServer.recover background { Procedure := "/kitchen.v1.KitchenService/GetPost" } []
      (Any.string "unexpected") emptyWorld).1
      = some { code := Code.internal, err := none } := by
  obtain ⟨⟨e1, h1, c1, w1, _⟩, _⟩ := recover_returns_internal_error exampleServer background
    { Procedure := "/kitchen.v1.KitchenService/GetPost" } []
    (Any.error "index out of range") emptyWorld
  obtain ⟨⟨e2, h2, c2, _, w2⟩, _⟩ := recover_returns_internal_error exampleServer background
    { Procedure := "/kitchen.v1.KitchenService/GetPost" } []
    (Any.string "unexpected") emptyWorld
  have g1 := w1 "index out of range" rfl
  have g2 := w2 (by intro err h; cases h)
  refine ⟨?_, ?_⟩
  · rw [h1]
    cases e1
    simp_all
  · rw [h2]
    cases e2
    simp_all

/-! ## Environments -/

theorem UnmarshalConfig_String_known (e : Env) (he : e ∈ knownEnvs) (old : Env) :
    Env.UnmarshalConfig old e.String = e := by
  simp only [knownEnvs, List.mem_cons, List.mem_singleton, List.not_mem_nil, or_false] at he
  rcases he with h | h | h | h | h | h | h <;> subst h <;> rfl

theorem UnmarshalConfig_mem_known (s : String) (old : Env) :
    Env.UnmarshalConfig old s ∈ knownEnvs := by
  unfold Env.UnmarshalConfig
  split_ifs <;> decide

/-- C14. `Env.String` and `Env.UnmarshalConfig` round-trip on the known environments:
unmarshalling `e.String()` yields `e` for each of `Local`, `Demo`, `Stage`, `Preprod`,
`QA`, `Production`, `Test`; unmarshalling any string yields one of those seven,
`Local` for every unrecognised string; and the `String` of the result unmarshals to
the same value again. -/
theorem Env_String_UnmarshalConfig_roundtrip :
    (∀ e, e ∈ knownEnvs → ∀ old : Env, Env.UnmarshalConfig old e.String = e) ∧
    (∀ (s : String) (old : Env), Env.UnmarshalConfig old s ∈ knownEnvs) ∧
    (∀ (s : String) (old : Env), s ∉ recognisedEnvNames → Env.UnmarshalConfig old s = Local) ∧
    (∀ (s : String) (old old1 : Env),
      Env.UnmarshalConfig old1 (Env.UnmarshalConfig old s).String
        = Env.UnmarshalConfig old s) := by
  refine ⟨UnmarshalConfig_String_known, UnmarshalConfig_mem_known, ?_, ?_⟩
  · intro s old hs
    simp only [recognisedEnvNames, List.mem_cons, List.mem_singleton, List.not_mem_nil,
      or_false, not_or] at hs
    obtain ⟨h1, h2, h3, h4, h5, h6, h7, h8, h9⟩ := hs
    simp [Env.UnmarshalConfig, h1, h2, h3, h4, h5, h6, h7, h8, h9]
  · intro s old old1
    exact UnmarshalConfig_String_known _ (UnmarshalConfig_mem_known s old) old1

/-- Witness for C14: `Stage` prints as `stg`, which unmarshals to `Stage`; the
unrecognised name `dev` unmarshals to `Local`. -/
theorem Env_String_UnmarshalConfig_roundtrip_witness :
    Env.UnmarshalConfig Local Stage.String = Stage ∧
    Env.UnmarshalConfig Production "dev" = Local :=
  ⟨Env_String_UnmarshalConfig_roundtrip.1 Stage (by decide) Local,
    Env_String_UnmarshalConfig_roundtrip.2.2.1 "dev" Production (by decide)⟩

/-! ## Logging configuration -/

/-- C13 (counterexample). After `Configure` has set the level `error`, a second
`Configure` with an empty `LogLevel` leaves the level `info`: the level held before
the call is not kept. -/
theorem Configure_empty_level_resets_level :
    noLevelBase.LogLevel = "" ∧
    errorLevelLogging.zcfg.Level = ZapLevel.error ∧
    (Configure goZap noLevelBase errorLevelLogging).2.zcfg.Level = ZapLevel.info ∧
    (Configure goZap noLevelBase errorLevelLogging).2.zcfg.Level
      ≠ errorLevelLogging.zcfg.Level := by
  decide

/-- C13 (amended). For every package state and every base configuration whose
`LogLevel` is empty, the level held after `Configure` is the level of the zap preset
`Configure` starts from, the development preset for `Local` and the production
preset for every other environment, whatever level was held before the call. -/
theorem Configure_empty_level_uses_preset (zap : ZapLibrary) (cfg : Base)
    (st : LoggingState) (h : cfg.LogLevel = "") :
    (Configure zap cfg st).2.zcfg.Level
      = (if cfg.Env ≠ Local then zap.NewProductionConfig
          else zap.NewDevelopmentConfig).Level := by
  unfold Configure
  simp only [h, ne_eq, not_true_eq_false, if_false]
  split <;> split_ifs <;> rfl

/-- Witness for C13 (amended): without a log level the production preset gives
`info` and the development preset gives `debug`, from a state holding `error`. -/
theorem Configure_empty_level_uses_preset_witness :
    (Configure goZap noLevelBase errorLevelLogging).2.zcfg.Level = ZapLevel.info ∧
    (Configure goZap localNoLevelBase errorLevelLogging).2.zcfg.Level = ZapLevel.debug :=
  ⟨Configure_empty_level_uses_preset goZap noLevelBase errorLevelLogging rfl,
    Configure_empty_level_uses_preset goZap localNoLevelBase errorLevelLogging rfl⟩

/-! ## Duplicate mount paths -/

theorem Register_ok_accepted {σ : Type} (ext : Externals) (sv : Service σ) (server : Server σ)
    (opts : List HandlerOption) (path : String) (s : Server σ)
    (h : sv.Register ext server opts = Except.ok (path, s)) :
    ext.muxPanics server.mux (sv.Factory sv.Handler (server.defaultOptions ext opts)).1
      = false := by
  unfold Service.Register ServeMux.Handle at h
  cases hp : ext.muxPanics server.mux
      (sv.Factory sv.Handler (server.defaultOptions ext opts)).1 with
  | true => simp [hp] at h
  | false => rfl

theorem goMuxPanics_false (mux : ServeMux) (pattern : String)
    (h : goMuxPanics mux pattern = false) : pattern ∉ mux.map Prod.fst := by
  unfold goMuxPanics at h
  simp only [Bool.or_eq_false_iff] at h
  intro hmem
  have := h.2
  simp only [List.contains_eq_any_beq, List.any_eq_false] at this
  obtain ⟨x, hx, hxe⟩ := List.mem_map.mp hmem
  have h3 := this x.1 (List.mem_map.mpr ⟨x, hx, rfl⟩)
  simp [hxe] at h3

theorem registerServices_go_nodup {σ : Type} (ext : Externals) (ho : List HandlerOption)
    (hgo : ext.muxPanics = goMuxPanics) :
    ∀ (svcs : List (ServiceRegistrar σ)) (s : Server σ) (names : List String)
      (s1 : Server σ) (names1 : List String),
      registerServices ext ho svcs s names = Except.ok (s1, names1) →
      (svcs.map (fun sv => (sv.Factory sv.Handler (s.defaultOptions ext ho)).1)).Nodup ∧
      ∀ p, p ∈ svcs.map (fun sv => (sv.Factory sv.Handler (s.defaultOptions ext ho)).1) →
        p ∉ s.mux.map Prod.fst := by
  intro svcs
  induction svcs with
  | nil =>
    intro s names s1 names1 _
    simp
  | cons sv rest ih =>
    intro s names s1 names1 h
    unfold registerServices at h
    cases hr : sv.Register ext s ho with
    | error p => simp [hr] at h
    | ok r =>
      obtain ⟨path, s2⟩ := r
      simp only [hr] at h
      have hacc := Register_ok_accepted ext sv s ho path s2 hr
      rw [hgo] at hacc
      have hnot := goMuxPanics_false _ _ hacc
      obtain ⟨_, p2, _⟩ := Register_ok_cfg ext sv s ho path s2 hr
      obtain ⟨q1, q2⟩ := ih s2 _ s1 names1 h
      have q1 : (rest.map (fun sv => (sv.Factory sv.Handler (s.defaultOptions ext ho)).1)).Nodup :=
        q1
      have q2 : ∀ p, p ∈ rest.map (fun sv => (sv.Factory sv.Handler (s.defaultOptions ext ho)).1) →
          p ∉ s2.mux.map Prod.fst := q2
      rw [p2] at q2
      simp only [List.map_append, List.map_cons, List.map_nil, List.mem_append,
        List.mem_singleton, not_or] at q2
      refine ⟨?_, ?_⟩
      · rw [List.map_cons, List.nodup_cons]
        refine ⟨?_, q1⟩
        intro hmem
        exact (q2 _ hmem).2 rfl
      · intro p hp
        rw [List.map_cons, List.mem_cons] at hp
        rcases hp with hp | hp
        · rw [hp]; exact hnot
        · exact (q2 p hp).1

theorem NewServer_go_nodup {σ : Type} (ext : Externals) (cfg : Config)
    (factory : HandlerFactory σ) (handler : Handler σ) (opts : List (ServerOption σ))
    (hgo : ext.muxPanics = goMuxPanics) (s : Server σ)
    (h : NewServer ext cfg factory handler opts = Except.ok s) :
    (mountPaths ext cfg factory handler opts).Nodup := by
  unfold NewServer at h
  simp only [List.nil_append, List.singleton_append] at h
  split at h
  · simp at h
  · next s1 names1 hreg =>
    have := (registerServices_go_nodup ext _ hgo _ _ _ s1 names1 hreg).1
    simpa [mountPaths, mountedRoutes, mountedServices, Function.comp_def] using this

/-- C12 (counterexample). With the multiplexer of `net/http`, two services that both
resolve to the mount path `/a` make `NewServer` panic in `ServeMux.Handle`: no server
is returned, so construction does not complete and no registration wins. -/
theorem NewServer_same_path_panics :
    mountPaths goExternals exampleConfig (pathFactory "/a") plainHandler
        [WithAdditionalService (pathFactory "/a") fullHandler] = ["/a", "/a"] ∧
    NewServer goExternals exampleConfig (pathFactory "/a") plainHandler
        [WithAdditionalService (pathFactory "/a") fullHandler]
      = Except.error "http: invalid or conflicting pattern /a" ∧
    ¬ ∃ s, NewServer goExternals exampleConfig (pathFactory "/a") plainHandler
        [WithAdditionalService (pathFactory "/a") fullHandler] = Except.ok s := by
  have h : NewServer goExternals exampleConfig (pathFactory "/a") plainHandler
      [WithAdditionalService (pathFactory "/a") fullHandler]
      = Except.error "http: invalid or conflicting pattern /a" := rfl
  refine ⟨by decide, h, ?_⟩
  rintro ⟨s, hs⟩
  rw [h] at hs
  cases hs

/-- C12 (amended). The registrar makes no check of its own for services that resolve
to the same mount path: it hands every registration to the multiplexer.  With a
multiplexer that accepts every registration, construction completes and the
multiplexer holds all routes in mount order, duplicates included.  With the
multiplexer of `net/http`, whose `Handle` panics on an already registered pattern,
`NewServer` panics whenever two mounted services resolve to the same path. -/
theorem NewServer_duplicate_mount_path {σ : Type} (ext : Externals) (cfg : Config)
    (factory : HandlerFactory σ) (handler : Handler σ) (opts : List (ServerOption σ)) :
    ((∀ m p, ext.muxPanics m p = false) →
      ∃ s, NewServer ext cfg factory handler opts = Except.ok s ∧
        (mountedRoutes ext cfg factory handler opts).IsPrefix s.mux) ∧
    (ext.muxPanics = goMuxPanics → ¬ (mountPaths ext cfg factory handler opts).Nodup →
      ∃ p, NewServer ext cfg factory handler opts = Except.error p) := by
  constructor
  · intro hmux
    obtain ⟨s, hs⟩ := NewServer_total ext cfg factory handler opts hmux
    obtain ⟨r, _⟩ := NewServer_ok ext cfg factory handler opts s hs
    exact ⟨s, hs, by rw [r]; exact List.prefix_append _ _⟩
  · intro hgo hdup
    cases hr : NewServer ext cfg factory handler opts with
    | error p => exact ⟨p, rfl⟩
    | ok s => exact absurd (NewServer_go_nodup ext cfg factory handler opts hgo s hr) hdup

/-- Witness for C12 (amended): two services at `/a`, on an accepting multiplexer and
on the multiplexer of `net/http`. -/
theorem NewServer_duplicate_mount_path_witness :
    (∃ s, NewServer permissiveExternals exampleConfig (pathFactory "/a") plainHandler
        [WithAdditionalService (pathFactory "/a") fullHandler] = Except.ok s ∧
      List.IsPrefix [("/a", HttpHandler.route 0), ("/a", HttpHandler.route 2)] s.mux) ∧
    (∃ p, NewServer goExternals exampleConfig (pathFactory "/a") plainHandler
        [WithAdditionalService (pathFactory "/a") fullHandler] = Except.error p) :=
  ⟨(NewServer_duplicate_mount_path permissiveExternals exampleConfig (pathFactory "/a")
      plainHandler [WithAdditionalService (pathFactory "/a") fullHandler]).1
      (fun _ _ => rfl),
    (NewServer_duplicate_mount_path goExternals exampleConfig (pathFactory "/a")
      plainHandler [WithAdditionalService (pathFactory "/a") fullHandler]).2
      rfl (by decide)⟩

end Kitchen
